import Mathlib

/-!
Verification of the authorization-service decision pipeline and cache
subsystem, shallowly embedded from the Python sources:
`app/services/abac_service.py`, `app/services/ownership_service.py`,
`app/services/rbac_service.py`, `app/services/decision_service.py`,
`app/cache.py`, and `app/routes/authz.py`.

Dynamic Python values that flow through ABAC conditions and request
contexts are modelled by the inductive type `PyValue` (None, bool, int,
str, list, dict); Python's cross-type `==` (where `True == 1`) is
`pyEq`, and Python's ordering comparisons, which raise `TypeError` on
incomparable operands, are `pyCompare` returning `Option Ordering`
(`none` models the raised `TypeError`). The regular-expression engine
used by the ABAC `regex` operator is kept abstract as a parameter
`rm : String → String → Except Unit Bool` (an `Except.error` models the
exceptions `re.match` can raise); every theorem below holds for every
such `rm`. The wall clock is an explicit integer parameter `now`, as the
spec's injectable time source. Fallible Python code is modelled with
`Except`/`Option`; a caught `except` block is an explicit `match` on the
`Except` value, and an uncaught exception is an `Except.error` result of
the embedded function. In particular `DecisionService._evaluate` re-applies
`uuid.UUID(...)` to tenant and owner ids that `model_dump()` already
returns as `uuid.UUID` objects — a call that raises `AttributeError` —
so the orchestrator functions below are `Except`-valued.
-/

/-- Python `s.startswith(pre)`, computed on the underlying character lists
so that concrete instances evaluate inside the kernel. -/
def strStartsWith (s pre : String) : Bool :=
  pre.data.isPrefixOf s.data

/-- Python `s.endswith(suf)`, computed on the underlying character lists. -/
def strEndsWith (s suf : String) : Bool :=
  suf.data.isSuffixOf s.data

/-- Python `c in s` for a single character. -/
def strContainsChar (s : String) (c : Char) : Bool :=
  s.data.contains c

/-- Python `s[:-n]` (`String.dropRight`), on the character list. -/
def strDropRight (s : String) (n : Nat) : String :=
  ⟨s.data.take (s.data.length - n)⟩

/-- Python `s[n:]` (`String.drop`), on the character list. -/
def strDrop (s : String) (n : Nat) : String :=
  ⟨s.data.drop n⟩

/-- Substring test on character lists (Python `needle in hay` for strings). -/
def charListIsInfixOf (needle : List Char) : List Char → Bool
  | [] => needle.isEmpty
  | h :: t => needle.isPrefixOf (h :: t) || charListIsInfixOf needle t

/-- Python substring membership `needle in hay`. -/
def strIsSubstr (needle hay : String) : Bool :=
  charListIsInfixOf needle.data hay.data

/-- Python `s.split(c)` for a one-character separator, on character lists. -/
def splitOnChar (c : Char) : List Char → List (List Char)
  | [] => [[]]
  | x :: xs =>
    let r := splitOnChar c xs
    if x = c then [] :: r
    else (x :: r.headD []) :: r.tail

/-- Python `s.split("*")`. -/
def splitOnStar (s : String) : List String :=
  (splitOnChar '*' s.data).map (fun cs => ⟨cs⟩)

/-- Python `s.split(":")`. -/
def splitOnColon (s : String) : List String :=
  (splitOnChar ':' s.data).map (fun cs => ⟨cs⟩)

/-- Python `s.upper()`, on the character list. -/
def strToUpper (s : String) : String :=
  ⟨s.data.map Char.toUpper⟩

/-- Python `s.lower()`, on the character list. -/
def strToLower (s : String) : String :=
  ⟨s.data.map Char.toLower⟩

/-- Model of the dynamic Python values appearing in ABAC conditions and
request contexts: `None`, booleans, integers, strings, lists, and string-keyed
dicts (attribute maps and `{operator, value}` condition shapes). -/
inductive PyValue where
  | none : PyValue
  | bool : Bool → PyValue
  | int : Int → PyValue
  | str : String → PyValue
  | list : List PyValue → PyValue
  | dict : List (String × PyValue) → PyValue

namespace PyValue

mutual

/-- Python `==` on modelled values: `True == 1` holds (bool is an int
subtype), values of unrelated types compare unequal (never raising), lists
and dicts compare structurally. -/
def pyEq : PyValue → PyValue → Bool
  | .none, .none => true
  | .bool a, .bool b => a == b
  | .bool a, .int b => (if a then (1 : Int) else 0) == b
  | .int a, .bool b => a == (if b then (1 : Int) else 0)
  | .int a, .int b => a == b
  | .str a, .str b => a == b
  | .list a, .list b => pyEqList a b
  | .dict a, .dict b => pyEqDict a b
  | _, _ => false

/-- Elementwise Python `==` on lists. -/
def pyEqList : List PyValue → List PyValue → Bool
  | [], [] => true
  | a :: as_, b :: bs => pyEq a b && pyEqList as_ bs
  | _, _ => false

/-- Entrywise Python `==` on dicts (modelled as ordered association lists). -/
def pyEqDict : List (String × PyValue) → List (String × PyValue) → Bool
  | [], [] => true
  | (ka, va) :: as_, (kb, vb) :: bs => ka == kb && pyEq va vb && pyEqDict as_ bs
  | _, _ => false

end

mutual

/-- Python ordering comparison (`<`, `<=`, `>`, `>=`): defined on
numbers (bools coerce to 0/1), on strings (lexicographic), and on lists
(lexicographic, skipping `==`-equal leading elements); any other pairing
raises `TypeError`, modelled as `Option.none`. -/
def pyCompare : PyValue → PyValue → Option Ordering
  | .int a, .int b => some (compare a b)
  | .int a, .bool b => some (compare a (if b then 1 else 0))
  | .bool a, .int b => some (compare (if a then (1 : Int) else 0) b)
  | .bool a, .bool b => some (compare (if a then (1 : Int) else 0) (if b then 1 else 0))
  | .str a, .str b => some (compare a b)
  | .list a, .list b => pyCompareList a b
  | _, _ => Option.none

/-- Python list comparison: leading `==`-equal elements are skipped, the
first unequal pair decides (and may itself raise). -/
def pyCompareList : List PyValue → List PyValue → Option Ordering
  | [], [] => some .eq
  | [], _ :: _ => some .lt
  | _ :: _, [] => some .gt
  | a :: as_, b :: bs => if pyEq a b then pyCompareList as_ bs else pyCompare a b

end

/-- Python truthiness of `value is None`. -/
def isNone : PyValue → Bool
  | .none => true
  | _ => false

/-- Python `str(value)` for the modelled values (fed to `re.match`). -/
def pyStr : PyValue → String
  | .none => "None"
  | .bool true => "True"
  | .bool false => "False"
  | .int n => toString n
  | .str s => s
  | .list _ => "<list>"
  | .dict _ => "<dict>"

end PyValue

/-- Python `d.get(key)` on a string-keyed dict: the stored value, or `none`
when the key is absent. -/
def dictGet (d : List (String × PyValue)) (key : String) : Option PyValue :=
  (d.find? (fun p => p.1 == key)).map Prod.snd

namespace ABACService

/-- Python membership `value in expected` for a modelled list, via `==`. -/
def pyMem (v : PyValue) (xs : List PyValue) : Bool :=
  xs.any (fun x => PyValue.pyEq x v)

/-- Whether a modelled value is a Python `list` (the `isinstance(expected,
(list, set))` checks; sets are represented as lists in the model). -/
def isList : PyValue → Bool
  | .list _ => true
  | _ => false

/-- Embedding of `ABACService._evaluate_complex_condition`
(`app/services/abac_service.py`, lines 50-95). `condition` is the
`{operator, value}` dict: the operator defaults to `eq` when absent and the
expected value to `None`. A `None` actual value short-circuits before the
`try` block; inside it, each operator branch yields `Except.ok` or, where
the Python expression can raise (`TypeError` on incomparable ordering
operands, non-string needle for `in <str>`, non-string pattern for
`re.match`), `Except.error`; the surrounding `except Exception` turns any
error into `false`. `rm` abstracts `re.match`. -/
def evaluate_complex_condition (rm : String → String → Except Unit Bool)
    (condition : List (String × PyValue)) (value : PyValue) : Bool :=
  let operator : PyValue := (dictGet condition "operator").getD (.str "eq")
  let expected : PyValue := (dictGet condition "value").getD .none
  let isOp : String → Bool := fun s => PyValue.pyEq operator (.str s)
  if value.isNone then
    isOp "null" || (isOp "eq" && expected.isNone)
  else
    let body : Except Unit Bool :=
      if isOp "eq" then .ok (PyValue.pyEq value expected)
      else if isOp "ne" then .ok (!PyValue.pyEq value expected)
      else if isOp "gt" then
        match PyValue.pyCompare value expected with
        | some o => .ok (o == .gt)
        | Option.none => .error ()
      else if isOp "gte" then
        match PyValue.pyCompare value expected with
        | some o => .ok (o != .lt)
        | Option.none => .error ()
      else if isOp "lt" then
        match PyValue.pyCompare value expected with
        | some o => .ok (o == .lt)
        | Option.none => .error ()
      else if isOp "lte" then
        match PyValue.pyCompare value expected with
        | some o => .ok (o != .gt)
        | Option.none => .error ()
      else if isOp "in" then
        .ok (match expected with
             | .list xs => pyMem value xs
             | _ => false)
      else if isOp "not_in" then
        .ok (match expected with
             | .list xs => !pyMem value xs
             | _ => true)
      else if isOp "contains" then
        match value with
        | .str s =>
          match expected with
          | .str e => .ok (strIsSubstr e s)
          | _ => .error ()
        | .list xs => .ok (pyMem expected xs)
        | _ => .ok false
      else if isOp "regex" then
        match expected with
        | .str pat => rm pat value.pyStr
        | _ => .error ()
      else
        .ok false
    match body with
    | .ok b => b
    | .error _ => false

/-- Embedding of `ABACService.evaluate_conditions`
(`app/services/abac_service.py`, lines 18-48). Conditions and context are
string-keyed dicts; an empty conditions dict returns `(true, [])`; a dict-
shaped condition value dispatches to the complex evaluator, any other value
is a plain `==` check against `context.get(key)`; the first failing
condition short-circuits with its failure code; on success the accumulated
`PASSED` codes are returned, defaulting to `["ABAC_MATCH"]` if empty. -/
def evaluate_conditions (rm : String → String → Except Unit Bool)
    (conditions context : List (String × PyValue)) : Bool × List String :=
  if conditions.isEmpty then (true, [])
  else
    let rec go : List (String × PyValue) → List String → Bool × List String
      | [], acc => (true, if acc.isEmpty then ["ABAC_MATCH"] else acc)
      | (key, expected) :: rest, acc =>
        let actual : PyValue := (dictGet context key).getD .none
        match expected with
        | .dict cond =>
          if evaluate_complex_condition rm cond actual then
            go rest (acc ++ ["ABAC_CONDITION_PASSED_" ++ strToUpper key])
          else (false, ["ABAC_CONDITION_FAILED_" ++ strToUpper key])
        | other =>
          if PyValue.pyEq actual other then
            go rest (acc ++ ["ABAC_CONDITION_PASSED_" ++ strToUpper key])
          else (false, ["ABAC_CONDITION_FAILED_" ++ strToUpper key])
    go conditions []

end ABACService

namespace OwnershipService

/-- Embedding of `OwnershipService.check_ownership`
(`app/services/ownership_service.py`, lines 19-39): absent owner returns
`(false, ["NO_OWNER_INFO"])`; string equality of user and owner ids returns
`(true, ["OWNER_ACCESS", "OWNER_ACTION_<ACTION_UPPERCASE>"])`; otherwise
`(false, ["NOT_OWNER"])`. -/
def check_ownership (user_id : String) (resource_owner_id : Option String)
    (action : String) : Bool × List String :=
  match resource_owner_id with
  | Option.none => (false, ["NO_OWNER_INFO"])
  | some owner =>
    if user_id = owner then (true, ["OWNER_ACCESS", "OWNER_ACTION_" ++ strToUpper action])
    else (false, ["NOT_OWNER"])

/-- Embedding of `OwnershipService.applies_to_action`
(`app/services/ownership_service.py`, lines 41-52): ownership applies to
read, update and delete only. -/
def applies_to_action (action : String) : Bool :=
  strToLower action ∈ ["read", "update", "delete"]

end OwnershipService

/-- Permission record as consumed by `RBACService.has_permission`
(`perm.get("resource_type")`, `perm.get("action")`, `perm.get("name")`). -/
structure Permission where
  name : String
  resource_type : String
  action : String
deriving DecidableEq

/-- Role record as produced by `RBACService.get_user_roles` after the
permission join (`role.get("name")`, `role.get("permissions", [])`). -/
structure Role where
  name : String
  permissions : List Permission
deriving DecidableEq

namespace RBACService

/-- Embedding of the fetch-failure boundary of `RBACService.get_user_roles`
(`app/services/rbac_service.py`, lines 39-58): the entity-gateway fetch
result (roles with permissions joined in, or an exception) degrades to an
empty role list on error rather than propagating. The cache-or-fetch
plumbing is elided; `fetched` is what the gateway interaction produced. -/
def get_user_roles (fetched : Except Unit (List Role)) : List Role :=
  match fetched with
  | .ok roles => roles
  | .error _ => []

/-- Whether some permission of the role matches `(resource_type, action)`
by exact string equality on both fields (the inner loop of
`RBACService.has_permission`). -/
def roleMatches (role : Role) (resource_type action : String) : Bool :=
  role.permissions.any (fun perm =>
    perm.resource_type = resource_type && perm.action = action)

/-- Embedding of the scan in `RBACService.has_permission`: the first role
(in list order) one of whose permissions matches `(resource_type, action)`
by exact string equality. -/
def firstMatchingRole (roles : List Role) (resource_type action : String) : Option Role :=
  roles.find? (fun role => roleMatches role resource_type action)

/-- Embedding of `RBACService.has_permission`
(`app/services/rbac_service.py`, lines 60-87), given the role list the
cache-or-fetch step returned: empty roles deny with `NO_ROLES`; otherwise
roles are scanned in order and the first matching permission short-circuits
with `RBAC_MATCH` plus the upper-cased role name; no match denies with
`NO_PERMISSION`. -/
def has_permission (roles : List Role) (resource_type action : String) :
    Bool × List String :=
  if roles.isEmpty then (false, ["NO_ROLES"])
  else
    match firstMatchingRole roles resource_type action with
    | some role => (true, ["RBAC_MATCH", "ROLE_" ++ strToUpper role.name])
    | Option.none => (false, ["NO_PERMISSION"])

end RBACService

/-- Action enum of `AuthorizationRequest.action` (`app/models/request.py`). -/
inductive ActionType where
  | create | read | update | delete | execute
deriving DecidableEq

/-- String value of an action (`ActionType(str, Enum)` member values). -/
def ActionType.value : ActionType → String
  | .create => "create"
  | .read => "read"
  | .update => "update"
  | .delete => "delete"
  | .execute => "execute"

/-- Decision enum (`app/models/response.py`). -/
inductive DecisionType where
  | ALLOW | DENY
deriving DecidableEq

/-- Authorization request together with the context fields the decision
pipeline reads (`app/models/request.py`): the context always exists
(pydantic `default_factory`), with optional tenant and resource-owner ids
and a free-form attribute map. -/
structure AuthzRequest where
  user_id : String
  resource : String
  action : ActionType
  tenant_id : Option String
  resource_owner_id : Option String
  attributes : List (String × PyValue)

/-- Resource type extracted in `DecisionService._evaluate`: the text before
the first `:` of the resource string (`request.resource.split(":")[0]`,
the whole string when there is no `:`). -/
def AuthzRequest.resource_type (r : AuthzRequest) : String :=
  (splitOnColon r.resource).headD r.resource

/-- Dump of the request context as the dict handed to the ABAC evaluator
(`request.context.model_dump()`): every field is present as a key, absent
optionals mapping to `None`. -/
def AuthzRequest.contextDump (r : AuthzRequest) : List (String × PyValue) :=
  [("tenant_id", (r.tenant_id.map PyValue.str).getD .none),
   ("resource_owner_id", (r.resource_owner_id.map PyValue.str).getD .none),
   ("ip_address", .none),
   ("time", .none),
   ("attributes", .dict r.attributes)]

namespace DecisionService

/-- Embedding of `UUID(x) if x else None` applied to a value taken from
`request.context.model_dump()` (`app/services/decision_service.py`, lines
105 and 129): `model_dump()` returns the pydantic `UUID4` fields as
`uuid.UUID` objects, and `uuid.UUID.__init__` calls `hex.replace(...)` on
its positional argument, so re-wrapping a present id raises
`AttributeError`; only the absent (`None`) case completes. -/
def uuid_of_dumped : Option String → Except Unit (Option String)
  | Option.none => .ok Option.none
  | some _ => .error ()

/-- Embedding of `DecisionService._evaluate`
(`app/services/decision_service.py`, lines 78-140), given the role list
`roles` that `rbac_service.has_permission` obtains for the user and tenant
(the gateway/cache interaction abstracted as in
`RBACService.get_user_roles`) and the abstract regex engine `rm`. The
resource type is the text before the first `:` of the resource string. The
argument `UUID(tenant_id) if tenant_id else None` of the RBAC call is
evaluated first and raises for any present tenant id
(`uuid_of_dumped`), so only untenanted requests reach RBAC, which denies
by default; ABAC is invoked with an empty conditions dict against the
context dump; for an ownership-relevant action with an owner id present,
`UUID(resource_owner_id)` likewise raises before `check_ownership` can
run (the subsequent ownership code, including the deny branch that
re-checks the RBAC flag, is embedded as written but unreachable).
Returns `.ok (decision, reason_codes, evaluated_policies)` or `.error`
for the propagating `AttributeError`. -/
def evaluate (rm : String → String → Except Unit Bool) (roles : List Role)
    (r : AuthzRequest) :
    Except Unit (DecisionType × List String × List String) :=
  let resource_type := r.resource_type
  let action := r.action.value
  let resource_owner_id := r.resource_owner_id
  match uuid_of_dumped r.tenant_id with
  | .error e => .error e
  | .ok _tenant_uuid =>
    let (has_rbac_permission, rbac_reasons) :=
      RBACService.has_permission roles resource_type action
    let reason_codes := rbac_reasons
    let evaluated_policies := ["rbac_policy"]
    if !has_rbac_permission then
      .ok (.DENY, if reason_codes.isEmpty then ["DEFAULT_DENY"] else reason_codes,
        evaluated_policies)
    else
      let (abac_result, abac_reasons) :=
        ABACService.evaluate_conditions rm [] r.contextDump
      let reason_codes := reason_codes ++ abac_reasons
      let evaluated_policies := evaluated_policies ++ ["abac_policy"]
      if !abac_result then .ok (.DENY, reason_codes, evaluated_policies)
      else
        if OwnershipService.applies_to_action action then
          match resource_owner_id with
          | some owner =>
            match uuid_of_dumped (some owner) with
            | .error e => .error e
            | .ok owner_uuid =>
              let (is_owner, owner_reasons) :=
                OwnershipService.check_ownership r.user_id owner_uuid action
              let reason_codes := reason_codes ++ owner_reasons
              let evaluated_policies := evaluated_policies ++ ["ownership_policy"]
              if !is_owner && !has_rbac_permission then
                .ok (.DENY, reason_codes, evaluated_policies)
              else
                .ok (.ALLOW, if reason_codes.isEmpty then ["ALLOW"] else reason_codes,
                  evaluated_policies)
          | Option.none =>
            .ok (.ALLOW, if reason_codes.isEmpty then ["ALLOW"] else reason_codes,
              evaluated_policies)
        else
          .ok (.ALLOW, if reason_codes.isEmpty then ["ALLOW"] else reason_codes,
            evaluated_policies)

/-- Embedding of `DecisionService._generate_decision_key`
(`app/services/decision_service.py`, lines 142-164): the colon-joined
string of user id, resource, action value and `str(context.get("tenant_id",
""))` (a missing tenant renders as Python's `str(None)`), then hashed;
`md5hex` abstracts `hashlib.md5(...).hexdigest()`. -/
def generate_decision_key (md5hex : String → String) (r : AuthzRequest) : String :=
  md5hex (String.intercalate ":"
    [r.user_id, r.resource, r.action.value, r.tenant_id.getD "None"])

end DecisionService

/-- Cache entry wrapping a value and its absolute expiry instant
(`CacheEntry` in `app/cache.py`: `expiry = now + ttl`, with the wall clock
an explicit integer in the model). -/
structure CacheEntry (V : Type) where
  value : V
  expiry : Int
deriving DecidableEq

/-- Predicate of `CacheEntry.is_expired` (`app/cache.py`, lines 28-30):
strictly past the expiry instant. -/
def CacheEntry.is_expired (e : CacheEntry V) (now : Int) : Bool :=
  now > e.expiry

/-- Embedding of `LRUCache` (`app/cache.py`, lines 33-164). The backing
`OrderedDict` is an ordered association list whose head is the least
recently used entry and whose last element is the most recently used, as in
`move_to_end` / `popitem(last=False)`. -/
structure LRUCache (V : Type) where
  max_size : Nat
  default_ttl : Int
  cache : List (String × CacheEntry V)
  hits : Nat
  misses : Nat

/-- Removal of a key from the backing association list (`del self.cache[key]`;
dict keys are unique, so the filter removes the one binding). -/
def eraseKey (key : String) (l : List (String × α)) : List (String × α) :=
  l.filter (fun p => p.1 != key)

namespace LRUCache

/-- Keys of the cache in recency order. -/
def keys (c : LRUCache V) : List String :=
  c.cache.map Prod.fst

/-- Embedding of `LRUCache.get` (`app/cache.py`, lines 50-74): a missing
key counts a miss; an expired entry is deleted and counts a miss; a live
entry is moved to the most-recently-used end, counts a hit, and its value
is returned. Returns the value (or `none`) with the updated cache. -/
def get (c : LRUCache V) (key : String) (now : Int) :
    Option V × LRUCache V :=
  match c.cache.find? (fun p => p.1 == key) with
  | Option.none => (Option.none, { c with misses := c.misses + 1 })
  | some (_, entry) =>
    if entry.is_expired now then
      (Option.none, { c with cache := eraseKey key c.cache, misses := c.misses + 1 })
    else
      (some entry.value,
       { c with cache := eraseKey key c.cache ++ [(key, entry)], hits := c.hits + 1 })

/-- Embedding of `LRUCache.set` (`app/cache.py`, lines 76-100): the TTL
defaults to the cache's; an existing key is replaced and moved to the
most-recently-used end; a new key is appended, and if the count then
exceeds `max_size` the single least-recently-used entry (the head) is
popped. -/
def set (c : LRUCache V) (key : String) (value : V) (ttl : Option Int)
    (now : Int) : LRUCache V :=
  let t := ttl.getD c.default_ttl
  let entry : CacheEntry V := ⟨value, now + t⟩
  if c.cache.any (fun p => p.1 == key) then
    { c with cache := eraseKey key c.cache ++ [(key, entry)] }
  else
    let newCache := c.cache ++ [(key, entry)]
    if newCache.length > c.max_size then
      { c with cache := newCache.drop 1 }
    else
      { c with cache := newCache }

/-- Embedding of `LRUCache.delete` (`app/cache.py`, lines 102-110):
removal of the key if present, silently a no-op otherwise. -/
def delete (c : LRUCache V) (key : String) : LRUCache V :=
  { c with cache := eraseKey key c.cache }

/-- Embedding of `LRUCache.clear` (`app/cache.py`, lines 112-117). -/
def clear (c : LRUCache V) : LRUCache V :=
  { c with cache := [], hits := 0, misses := 0 }

/-- Key selection of `LRUCache.clear_pattern` (`app/cache.py`, lines
126-141), with its branch priority: a trailing `*` selects by the text
before it as a leading match; otherwise a leading `*` selects by the text
after it as a trailing match; otherwise an embedded `*` splits the pattern
and selects keys starting with the part before the first `*` and ending
with the part directly after it; otherwise only a key equal to the pattern
is selected. -/
def keysToDelete (pattern : String) (ks : List String) : List String :=
  if strEndsWith pattern "*" then
    let pre := strDropRight pattern 1
    ks.filter (fun k => strStartsWith k pre)
  else if strStartsWith pattern "*" then
    let suf := strDrop pattern 1
    ks.filter (fun k => strEndsWith k suf)
  else if strContainsChar pattern '*' then
    let parts := splitOnStar pattern
    ks.filter (fun k => strStartsWith k (parts.headD "") &&
                        strEndsWith k ((parts.drop 1).headD ""))
  else
    if ks.contains pattern then [pattern] else []

/-- Embedding of `LRUCache.clear_pattern` (`app/cache.py`, lines 119-146):
the selected keys are collected first and then each is deleted, all within
one critical section. -/
def clear_pattern (c : LRUCache V) (pattern : String) : LRUCache V :=
  let keys_to_delete := keysToDelete pattern c.keys
  { c with cache := keys_to_delete.foldl (fun acc k => eraseKey k acc) c.cache }

end LRUCache

/-- One cache operation of the public `LRUCache` surface, for stating
properties of arbitrary operation sequences. -/
inductive CacheOp (V : Type) where
  | get (key : String) (now : Int)
  | set (key : String) (value : V) (ttl : Option Int) (now : Int)
  | delete (key : String)
  | clear
  | clear_pattern (pattern : String)

/-- State transition of one cache operation. -/
def LRUCache.apply (c : LRUCache V) : CacheOp V → LRUCache V
  | .get key now => (c.get key now).2
  | .set key value ttl now => c.set key value ttl now
  | .delete key => c.delete key
  | .clear => c.clear
  | .clear_pattern pattern => c.clear_pattern pattern

/-- Embedding of `PolicyCache` (`app/cache.py`, lines 167-266): the three
independently configured LRU caches, polymorphic in their value types. -/
structure PolicyCache (P R D : Type) where
  policy_cache : LRUCache P
  role_cache : LRUCache R
  decision_cache : LRUCache D

namespace PolicyCache

/-- Embedding of `PolicyCache.get_decision`: read-through on the decision
cache under the `decision:` key namespace. -/
def get_decision (pc : PolicyCache P R D) (decision_key : String) (now : Int) :
    Option D × PolicyCache P R D :=
  let (v, dc) := pc.decision_cache.get ("decision:" ++ decision_key) now
  (v, { pc with decision_cache := dc })

/-- Embedding of `PolicyCache.set_decision`: store under the `decision:`
key namespace with the decision cache's own TTL. -/
def set_decision (pc : PolicyCache P R D) (decision_key : String) (decision : D)
    (now : Int) : PolicyCache P R D :=
  { pc with decision_cache :=
      pc.decision_cache.set ("decision:" ++ decision_key) decision Option.none now }

/-- Embedding of `PolicyCache.set_user_roles`: store under the
`user_roles:{user}:{tenant}` key in the role cache. -/
def set_user_roles (pc : PolicyCache P R D) (user_id tenant_id : String)
    (roles : R) (now : Int) : PolicyCache P R D :=
  { pc with role_cache :=
      (pc.role_cache.set ("user_roles:" ++ user_id ++ ":" ++ tenant_id) roles
        Option.none now) }

/-- Embedding of `PolicyCache.clear_tenant` (`app/cache.py`, lines 247-252):
the pattern `*:{tenant_id}*` is applied to all three caches. -/
def clear_tenant (pc : PolicyCache P R D) (tenant_id : String) : PolicyCache P R D :=
  { policy_cache := pc.policy_cache.clear_pattern ("*:" ++ tenant_id ++ "*"),
    role_cache := pc.role_cache.clear_pattern ("*:" ++ tenant_id ++ "*"),
    decision_cache := pc.decision_cache.clear_pattern ("*:" ++ tenant_id ++ "*") }

/-- Embedding of `PolicyCache.clear_user` (`app/cache.py`, lines 254-258):
the pattern `user_roles:{user_id}:*` is applied to the role cache and
`decision:*:{user_id}:*` to the decision cache. -/
def clear_user (pc : PolicyCache P R D) (user_id : String) : PolicyCache P R D :=
  { pc with
    role_cache := pc.role_cache.clear_pattern ("user_roles:" ++ user_id ++ ":*"),
    decision_cache :=
      pc.decision_cache.clear_pattern ("decision:*:" ++ user_id ++ ":*") }

end PolicyCache

/-- Authorization response as cached and returned
(`app/models/response.py`): decision, reason codes, policy version,
evaluated policies, and the response timestamp from the metadata. -/
structure AuthorizationResponse where
  decision : DecisionType
  reason_codes : List String
  policy_version : String
  evaluated_policies : List String
  timestamp : Int
deriving DecidableEq

namespace DecisionService

/-- Embedding of `DecisionService.check_authorization`
(`app/services/decision_service.py`, lines 33-76): generate the decision
key, consult the decision cache (a stored response — a non-empty dict — is
returned unchanged with no evaluation), otherwise run the pipeline; if it
raises, the exception propagates out of the service (`.error`), the miss
already counted but nothing stored; otherwise build the response stamped
with the current instant, cache it under the decision TTL, and return it
together with the updated cache state. `md5hex` abstracts the md5
fingerprint, `rm` the regex engine, and `roles` the role list the RBAC
step obtains for this user and tenant. -/
def check_authorization (md5hex : String → String)
    (rm : String → String → Except Unit Bool) (roles : List Role) (now : Int)
    (pc : PolicyCache P R AuthorizationResponse) (r : AuthzRequest) :
    Except Unit (AuthorizationResponse × PolicyCache P R AuthorizationResponse) :=
  let decision_key := generate_decision_key md5hex r
  let (cached_decision, pc1) := pc.get_decision decision_key now
  match cached_decision with
  | some response => .ok (response, pc1)
  | Option.none =>
    match evaluate rm roles r with
    | .error e => .error e
    | .ok (decision, reason_codes, evaluated_policies) =>
      let response : AuthorizationResponse :=
        ⟨decision, reason_codes, "1.0.0", evaluated_policies, now⟩
      .ok (response, pc1.set_decision decision_key response now)

end DecisionService

/-- Item of a batch response (`DecisionResponse` in
`app/models/response.py`). -/
structure DecisionResponse where
  decision : DecisionType
  reason_codes : List String
  policy_version : String
  request_index : Nat
deriving DecidableEq

namespace AuthzRoutes

/-- Outcome recorded for one batch item (`app/routes/authz.py`, lines
56-73): a successful check contributes its decision, reasons and policy
version at its index; a raising check is caught and contributes
`DENY`/`["EVALUATION_ERROR"]`/`"1.0.0"` at its index. -/
def batchItem (result : Except Unit AuthorizationResponse) (index : Nat) :
    DecisionResponse :=
  match result with
  | .ok response =>
    ⟨response.decision, response.reason_codes, response.policy_version, index⟩
  | .error _ => ⟨.DENY, ["EVALUATION_ERROR"], "1.0.0", index⟩

/-- Loop of `batch_check_authorization` (`app/routes/authz.py`, lines
44-81): items are processed in order with a per-item try/except; `run`
abstracts `decision_service.check_authorization`, taking and returning the
service state (caches), and possibly raising. -/
def batchLoop (run : σ → AuthzRequest → Except Unit AuthorizationResponse × σ) :
    σ → Nat → List AuthzRequest → List DecisionResponse
  | _, _, [] => []
  | s, index, check :: rest =>
    let (result, s') := run s check
    batchItem result index :: batchLoop run s' (index + 1) rest

/-- Embedding of `batch_check_authorization` (`app/routes/authz.py`,
lines 44-87): the enumerate loop starting at index 0. -/
def batch_check_authorization
    (run : σ → AuthzRequest → Except Unit AuthorizationResponse × σ)
    (s : σ) (checks : List AuthzRequest) : List DecisionResponse :=
  batchLoop run s 0 checks

/-- Service state reached just before the batch item at position `k` is
processed. -/
def stateAt (run : σ → AuthzRequest → Except Unit AuthorizationResponse × σ)
    (s : σ) : List AuthzRequest → Nat → σ
  | _, 0 => s
  | [], _ + 1 => s
  | check :: rest, k + 1 => stateAt run (run s check).2 rest k

end AuthzRoutes

/-! ### Shared helper lemmas -/

/-- When the tenant-id re-conversion does not raise (untenanted request)
and RBAC reports no permission, the pipeline stops at the RBAC step: DENY,
RBAC's reasons (`DEFAULT_DENY` if they were empty), and only `rbac_policy`
evaluated. -/
theorem evaluate_of_rbac_false (rm : String → String → Except Unit Bool)
    (roles : List Role) (r : AuthzRequest) (rs : List String)
    (htenant : r.tenant_id = Option.none)
    (h : RBACService.has_permission roles r.resource_type r.action.value = (false, rs)) :
    DecisionService.evaluate rm roles r =
      .ok (.DENY, (if rs.isEmpty then ["DEFAULT_DENY"] else rs), ["rbac_policy"]) := by
  unfold DecisionService.evaluate
  simp only [htenant, DecisionService.uuid_of_dumped, h, Bool.not_false, if_true]

/-- A present tenant id makes the pipeline raise in the `UUID` re-wrapping
before RBAC runs, whatever the roles, regex engine and rest of the
request. -/
theorem evaluate_of_tenant_some (rm : String → String → Except Unit Bool)
    (roles : List Role) (r : AuthzRequest) (t : String)
    (htenant : r.tenant_id = some t) :
    DecisionService.evaluate rm roles r = .error () := by
  unfold DecisionService.evaluate
  simp only [htenant, DecisionService.uuid_of_dumped]

/-- The first element satisfying a predicate, located by its index. -/
theorem find?_eq_get_of_first {α : Type} (p : α → Bool) (l : List α) (i : Nat)
    (hi : i < l.length) (hp : p (l.get ⟨i, hi⟩) = true)
    (hbefore : ∀ j (hj : j < l.length), j < i → p (l.get ⟨j, hj⟩) = false) :
    l.find? p = some (l.get ⟨i, hi⟩) := by
  induction l generalizing i with
  | nil => exact absurd hi (by simp)
  | cons a tl ih =>
    cases i with
    | zero =>
      simp only [List.get] at hp
      simp [List.find?, hp]
    | succ k =>
      have ha : p a = false := hbefore 0 (by simp) (Nat.succ_pos k)
      simp only [List.find?, ha]
      simp only [List.length_cons, Nat.succ_lt_succ_iff] at hi
      exact ih k hi hp
        (fun j hj hlt => hbefore (j + 1) (by simpa using Nat.succ_lt_succ hj)
          (Nat.succ_lt_succ hlt))

/-! ### C1 -/

/-- C1 counterexample to the claim as stated: for a tenanted request whose
RBAC check returns false (here: zero roles), the evaluation does not
return the asserted `(DENY, RBAC reasons, ["rbac_policy"])` triple — it
raises at the `UUID(tenant_id)` re-wrapping before RBAC runs. -/
theorem C1_rbac_default_deny_gate_counterexample :
    RBACService.has_permission []
        (AuthzRequest.resource_type ⟨"u1", "loan:1", .read, some "T1", some "u2", []⟩)
        "read" = (false, ["NO_ROLES"]) ∧
    DecisionService.evaluate (fun _ _ => .ok true) []
        ⟨"u1", "loan:1", .read, some "T1", some "u2", []⟩ = .error () := by
  exact ⟨rfl, evaluate_of_tenant_some (fun _ _ => .ok true) []
    ⟨"u1", "loan:1", .read, some "T1", some "u2", []⟩ "T1" rfl⟩

/-- C1 (amended): for every request without a tenant id — a present tenant
id raises `AttributeError` in the `UUID` re-wrapping at
`decision_service.py:105` before RBAC runs — if the RBAC check returns
false, the orchestrator returns DENY without consulting ABAC or Ownership:
the reason codes are exactly RBAC's reasons (`["DEFAULT_DENY"]` if those
are empty), the evaluated-policies list is exactly `["rbac_policy"]`, and
since the regex engine, the context attributes and the owner id are
universally quantified, no ABAC or Ownership outcome can produce ALLOW. -/
theorem C1_rbac_default_deny_gate (rm : String → String → Except Unit Bool)
    (roles : List Role) (r : AuthzRequest) (rs : List String)
    (htenant : r.tenant_id = Option.none)
    (h : RBACService.has_permission roles r.resource_type r.action.value = (false, rs)) :
    DecisionService.evaluate rm roles r =
      .ok (.DENY, (if rs.isEmpty then ["DEFAULT_DENY"] else rs), ["rbac_policy"]) :=
  evaluate_of_rbac_false rm roles r rs htenant h

/-- Witness for C1 at a concrete untenanted request with no roles. -/
theorem C1_rbac_default_deny_gate_witness :
    DecisionService.evaluate (fun _ _ => .ok true) []
        ⟨"u1", "loan:1", .read, Option.none, some "u2", []⟩ =
      .ok (.DENY, ["NO_ROLES"], ["rbac_policy"]) := by
  have h := C1_rbac_default_deny_gate (fun _ _ => .ok true) []
    ⟨"u1", "loan:1", .read, Option.none, some "u2", []⟩ ["NO_ROLES"] rfl (by rfl)
  simpa using h

/-! ### C2 -/

/-- With the tenant re-conversion passed (no tenant id), RBAC passed, an
ownership-relevant action and an owner id present, the pipeline raises at
the `UUID(resource_owner_id)` re-wrapping instead of reaching
`check_ownership`. -/
theorem evaluate_of_rbac_true_owner (rm : String → String → Except Unit Bool)
    (roles : List Role) (r : AuthzRequest) (rs : List String) (o : String)
    (htenant : r.tenant_id = Option.none)
    (h : RBACService.has_permission roles r.resource_type r.action.value = (true, rs))
    (hoa : OwnershipService.applies_to_action r.action.value = true)
    (hro : r.resource_owner_id = some o) :
    DecisionService.evaluate rm roles r = .error () := by
  have habac : ABACService.evaluate_conditions rm [] r.contextDump = (true, []) := rfl
  unfold DecisionService.evaluate
  simp only [htenant, DecisionService.uuid_of_dumped, h, habac, hoa, hro,
    Bool.not_true, Bool.false_eq_true, if_false, if_true]

/-- With no tenant id, RBAC passed, and the ownership step not applicable
(non-ownership action or no owner id), the pipeline completes with ALLOW
and the accumulated reasons. -/
theorem evaluate_of_rbac_true_no_owner (rm : String → String → Except Unit Bool)
    (roles : List Role) (r : AuthzRequest) (rs : List String)
    (htenant : r.tenant_id = Option.none)
    (h : RBACService.has_permission roles r.resource_type r.action.value = (true, rs))
    (hcase : OwnershipService.applies_to_action r.action.value = false ∨
      r.resource_owner_id = Option.none) :
    DecisionService.evaluate rm roles r =
      .ok (.ALLOW, if rs.isEmpty then ["ALLOW"] else rs,
        ["rbac_policy", "abac_policy"]) := by
  have habac : ABACService.evaluate_conditions rm [] r.contextDump = (true, []) := rfl
  unfold DecisionService.evaluate
  rcases hcase with hoa | hro
  · simp [htenant, DecisionService.uuid_of_dumped, h, habac, hoa]
  · cases hoa : OwnershipService.applies_to_action r.action.value <;>
      simp [htenant, DecisionService.uuid_of_dumped, h, habac, hoa, hro]

/-- C2 counterexample to the claim as stated: a request in which RBAC
passes (matching role, untenanted) but an owner id is present on an
ownership-relevant action — the evaluation raises at the
`UUID(resource_owner_id)` re-wrapping instead of returning ALLOW. -/
theorem C2_allow_iff_rbac_counterexample :
    (RBACService.has_permission [⟨"admin", [⟨"p1", "loan", "read"⟩]⟩]
      (AuthzRequest.resource_type ⟨"u1", "loan:1", .read, Option.none, some "u2", []⟩)
      "read").1 = true ∧
    DecisionService.evaluate (fun _ _ => .ok true) [⟨"admin", [⟨"p1", "loan", "read"⟩]⟩]
      ⟨"u1", "loan:1", .read, Option.none, some "u2", []⟩ = .error () := by
  constructor
  · rfl
  · exact evaluate_of_rbac_true_owner (fun _ _ => .ok true)
      [⟨"admin", [⟨"p1", "loan", "read"⟩]⟩]
      ⟨"u1", "loan:1", .read, Option.none, some "u2", []⟩ _ "u2" rfl rfl rfl rfl

/-- C2 (amended): for every request without a tenant id (a present tenant
id raises before RBAC), the ABAC step — invoked with an empty conditions
dict — always yields `(true, [])`; any run of the pipeline that completes
returns ALLOW exactly when RBAC's `has_permission` returned true; but a
run with RBAC passed, an ownership-relevant action and an owner id
present does not complete: it raises at the `UUID(resource_owner_id)`
re-wrapping of `decision_service.py:129` before `check_ownership`, so the
ownership DENY return (whose guard also re-checks the RBAC flag) remains
unreachable; with no owner id or a non-ownership action the run completes
with ALLOW. -/
theorem C2_allow_iff_rbac (rm : String → String → Except Unit Bool)
    (roles : List Role) (r : AuthzRequest)
    (htenant : r.tenant_id = Option.none) :
    ABACService.evaluate_conditions rm [] r.contextDump = (true, []) ∧
    (∀ out, DecisionService.evaluate rm roles r = .ok out →
      (out.1 = .ALLOW ↔
        (RBACService.has_permission roles r.resource_type r.action.value).1 = true)) ∧
    (∀ o, (RBACService.has_permission roles r.resource_type r.action.value).1 = true →
      OwnershipService.applies_to_action r.action.value = true →
      r.resource_owner_id = some o →
      DecisionService.evaluate rm roles r = .error ()) ∧
    ((RBACService.has_permission roles r.resource_type r.action.value).1 = true →
      (OwnershipService.applies_to_action r.action.value = false ∨
        r.resource_owner_id = Option.none) →
      ∃ out, DecisionService.evaluate rm roles r = .ok out ∧ out.1 = .ALLOW) := by
  rcases hh : RBACService.has_permission roles r.resource_type r.action.value with ⟨b, rs⟩
  refine ⟨rfl, ?_, ?_, ?_⟩
  · intro out hout
    rcases b with _ | _
    · have hev := evaluate_of_rbac_false rm roles r rs htenant hh
      rw [hev] at hout
      injection hout with hout
      rw [← hout]
      simp
    · simp only [hh]
      rcases hro : r.resource_owner_id with _ | o
      · have hev := evaluate_of_rbac_true_no_owner rm roles r rs htenant hh (Or.inr hro)
        rw [hev] at hout
        injection hout with hout
        rw [← hout]
        simp
      · cases hoa : OwnershipService.applies_to_action r.action.value
        · have hev := evaluate_of_rbac_true_no_owner rm roles r rs htenant hh (Or.inl hoa)
          rw [hev] at hout
          injection hout with hout
          rw [← hout]
          simp
        · have hev := evaluate_of_rbac_true_owner rm roles r rs o htenant hh hoa hro
          rw [hev] at hout
          exact absurd hout (by simp)
  · intro o hb hoa hro
    rcases b with _ | _
    · simp at hb
    · exact evaluate_of_rbac_true_owner rm roles r rs o htenant hh hoa hro
  · intro hb hcase
    rcases b with _ | _
    · simp at hb
    · exact ⟨_, evaluate_of_rbac_true_no_owner rm roles r rs htenant hh hcase, rfl⟩

/-- Witness for C2 at concrete untenanted requests: the empty-conditions
ABAC fact, RBAC-true derived from a completed ALLOW run, and the raising
owner-bearing run. -/
theorem C2_allow_iff_rbac_witness :
    ABACService.evaluate_conditions (fun _ _ => .ok true) []
      (AuthzRequest.contextDump ⟨"u1", "loan:1", .read, Option.none, Option.none, []⟩) =
      (true, []) ∧
    (RBACService.has_permission [⟨"admin", [⟨"p1", "loan", "read"⟩]⟩]
      (AuthzRequest.resource_type ⟨"u1", "loan:1", .read, Option.none, Option.none, []⟩)
      "read").1 = true ∧
    DecisionService.evaluate (fun _ _ => .ok true) [⟨"admin", [⟨"p1", "loan", "read"⟩]⟩]
      ⟨"u3", "loan:3", .read, Option.none, some "u4", []⟩ = .error () := by
  refine ⟨?_, ?_, ?_⟩
  · exact (C2_allow_iff_rbac (fun _ _ => .ok true) []
      ⟨"u1", "loan:1", .read, Option.none, Option.none, []⟩ rfl).1
  · exact ((C2_allow_iff_rbac (fun _ _ => .ok true) [⟨"admin", [⟨"p1", "loan", "read"⟩]⟩]
      ⟨"u1", "loan:1", .read, Option.none, Option.none, []⟩ rfl).2.1
      (.ALLOW, ["RBAC_MATCH", "ROLE_ADMIN"], ["rbac_policy", "abac_policy"])
      (by rfl)).mp rfl
  · exact (C2_allow_iff_rbac (fun _ _ => .ok true) [⟨"admin", [⟨"p1", "loan", "read"⟩]⟩]
      ⟨"u3", "loan:3", .read, Option.none, some "u4", []⟩ rfl).2.2.1 "u4"
      (by rfl) (by rfl) rfl

/-! ### C4 -/

/-- C4: RBAC `has_permission` returns `(false, ["NO_ROLES"])` on an empty
role list (and a failed gateway fetch degrades to the empty list); a role
list whose first matching role — in scan order — is at position `i` yields
`(true, ["RBAC_MATCH", "ROLE_<NAME_UPPERCASE>"])` for that role; a
non-empty list with no matching permission yields
`(false, ["NO_PERMISSION"])`; and the orchestrator for a user with zero
roles and no tenant id returns DENY with reason codes exactly
`["NO_ROLES"]` — amended from "for a user with zero roles" because a
present tenant id raises `AttributeError` in the `UUID` re-wrapping at
`decision_service.py:105` before RBAC can run (see the counterexample). -/
theorem C4_rbac_has_permission (roles : List Role) (resource_type action : String) :
    (roles = [] →
      RBACService.has_permission roles resource_type action = (false, ["NO_ROLES"])) ∧
    RBACService.get_user_roles (.error ()) = [] ∧
    (∀ i (hi : i < roles.length),
      RBACService.roleMatches (roles.get ⟨i, hi⟩) resource_type action = true →
      (∀ j (hj : j < roles.length), j < i →
        RBACService.roleMatches (roles.get ⟨j, hj⟩) resource_type action = false) →
      RBACService.has_permission roles resource_type action =
        (true, ["RBAC_MATCH", "ROLE_" ++ strToUpper (roles.get ⟨i, hi⟩).name])) ∧
    ((∀ role ∈ roles, RBACService.roleMatches role resource_type action = false) →
      roles ≠ [] →
      RBACService.has_permission roles resource_type action = (false, ["NO_PERMISSION"])) ∧
    (∀ (rm : String → String → Except Unit Bool) (r : AuthzRequest),
      r.tenant_id = Option.none →
      DecisionService.evaluate rm [] r =
        .ok (.DENY, ["NO_ROLES"], ["rbac_policy"])) := by
  refine ⟨?_, rfl, ?_, ?_, ?_⟩
  · rintro rfl; rfl
  · intro i hi hp hbefore
    have hfind : RBACService.firstMatchingRole roles resource_type action =
        some (roles.get ⟨i, hi⟩) :=
      find?_eq_get_of_first _ roles i hi hp hbefore
    have hne : roles.isEmpty = false := by
      cases roles with
      | nil => exact absurd hi (by simp)
      | cons a tl => rfl
    unfold RBACService.has_permission
    simp [hne, hfind]
  · intro hall hne
    have hfind : RBACService.firstMatchingRole roles resource_type action = Option.none := by
      unfold RBACService.firstMatchingRole
      rw [List.find?_eq_none]
      intro role hmem
      simp [hall role hmem]
    have hne' : roles.isEmpty = false := by
      cases roles with
      | nil => exact absurd rfl hne
      | cons a tl => rfl
    unfold RBACService.has_permission
    simp [hne', hfind]
  · intro rm r htenant
    have h := evaluate_of_rbac_false rm [] r ["NO_ROLES"] htenant rfl
    simpa using h

/-- Witness for C4 at concrete inputs: no roles, a matching role at
position 1 behind a non-matching one, and a non-matching non-empty list. -/
theorem C4_rbac_has_permission_witness :
    RBACService.has_permission [] "loan" "read" = (false, ["NO_ROLES"]) ∧
    RBACService.has_permission
        [⟨"viewer", [⟨"p0", "doc", "read"⟩]⟩, ⟨"admin", [⟨"p1", "loan", "read"⟩]⟩]
        "loan" "read" = (true, ["RBAC_MATCH", "ROLE_ADMIN"]) ∧
    RBACService.has_permission [⟨"viewer", [⟨"p0", "doc", "read"⟩]⟩] "loan" "read" =
      (false, ["NO_PERMISSION"]) ∧
    DecisionService.evaluate (fun _ _ => .ok true) []
        ⟨"u5", "loan:5", .read, Option.none, Option.none, []⟩ =
      .ok (.DENY, ["NO_ROLES"], ["rbac_policy"]) := by
  refine ⟨(C4_rbac_has_permission [] "loan" "read").1 rfl, ?_, ?_, ?_⟩
  · have h := (C4_rbac_has_permission
      [⟨"viewer", [⟨"p0", "doc", "read"⟩]⟩, ⟨"admin", [⟨"p1", "loan", "read"⟩]⟩]
      "loan" "read").2.2.1 1 (by decide) (by decide)
      (by intro j hj hlt
          have hj0 : j = 0 := Nat.lt_one_iff.mp hlt
          subst hj0
          show RBACService.roleMatches ⟨"viewer", [⟨"p0", "doc", "read"⟩]⟩ "loan" "read" = false
          decide)
    exact h
  · exact (C4_rbac_has_permission [⟨"viewer", [⟨"p0", "doc", "read"⟩]⟩]
      "loan" "read").2.2.2.1 (by intro role hmem; fin_cases hmem; decide)
      (by exact List.cons_ne_nil _ _)
  · exact (C4_rbac_has_permission [] "loan" "read").2.2.2.2 (fun _ _ => .ok true)
      ⟨"u5", "loan:5", .read, Option.none, Option.none, []⟩ rfl

/-- C4 counterexample to the claim's final sentence as stated: a tenanted
request by a user with zero roles does not evaluate to DENY — the pipeline
raises at the `UUID(tenant_id)` re-wrapping before RBAC. -/
theorem C4_rbac_has_permission_counterexample :
    RBACService.has_permission []
        (AuthzRequest.resource_type ⟨"u9", "doc:9", .update, some "T9", Option.none, []⟩)
        "update" = (false, ["NO_ROLES"]) ∧
    DecisionService.evaluate (fun _ _ => .ok true) []
        ⟨"u9", "doc:9", .update, some "T9", Option.none, []⟩ = .error () := by
  exact ⟨rfl, evaluate_of_tenant_some (fun _ _ => .ok true) []
    ⟨"u9", "doc:9", .update, some "T9", Option.none, []⟩ "T9" rfl⟩

/-! ### C9 -/

/-- Ordering operators on operands whose comparison raises evaluate to
non-matching (helper for the operator-safety claim). -/
theorem abac_ord_incomparable_false (rm : String → String → Except Unit Bool)
    (condition : List (String × PyValue)) (value : PyValue) (op : String)
    (hmem : op ∈ (["gt", "gte", "lt", "lte"] : List String))
    (hop : dictGet condition "operator" = some (.str op))
    (hval : value.isNone = false)
    (hcmp : PyValue.pyCompare value ((dictGet condition "value").getD .none) = Option.none) :
    ABACService.evaluate_complex_condition rm condition value = false := by
  unfold ABACService.evaluate_complex_condition
  simp only [hop, Option.getD_some] at *
  fin_cases hmem <;>
    simp [hval, PyValue.pyEq, hcmp]

/-- C9: the complex-condition evaluator is total and never raises — every
raising Python expression is confined to the `try` body and caught. The
ordering operators `gt/gte/lt/lte` on operands whose comparison raises
`TypeError` (modelled `pyCompare = none`) evaluate to non-matching; `in`
with a non-list expected value is non-matching and `not_in` with a
non-list expected value is matching; an unknown operator is non-matching;
and concretely `gt` of a non-numeric actual against a numeric expected
value is non-matching. -/
theorem C9_abac_operator_safety (rm : String → String → Except Unit Bool)
    (condition : List (String × PyValue)) (value : PyValue) :
    (∀ op, op ∈ (["gt", "gte", "lt", "lte"] : List String) →
      dictGet condition "operator" = some (.str op) →
      value.isNone = false →
      PyValue.pyCompare value ((dictGet condition "value").getD .none) = Option.none →
      ABACService.evaluate_complex_condition rm condition value = false) ∧
    (dictGet condition "operator" = some (.str "in") →
      value.isNone = false →
      ABACService.isList ((dictGet condition "value").getD .none) = false →
      ABACService.evaluate_complex_condition rm condition value = false) ∧
    (dictGet condition "operator" = some (.str "not_in") →
      value.isNone = false →
      ABACService.isList ((dictGet condition "value").getD .none) = false →
      ABACService.evaluate_complex_condition rm condition value = true) ∧
    (∀ op, dictGet condition "operator" = some (.str op) →
      op ∉ (["eq", "ne", "gt", "gte", "lt", "lte", "in", "not_in",
             "contains", "regex"] : List String) →
      value.isNone = false →
      ABACService.evaluate_complex_condition rm condition value = false) ∧
    ABACService.evaluate_complex_condition rm
      [("operator", .str "gt"), ("value", .int 5)] (.str "abc") = false := by
  refine ⟨fun op => abac_ord_incomparable_false rm condition value op, ?_, ?_, ?_, ?_⟩
  · intro hop hval hlist
    unfold ABACService.evaluate_complex_condition
    simp only [hop, Option.getD_some]
    rcases hexp : (dictGet condition "value").getD .none with _ | b | n | s | xs | d <;>
      simp [hexp, ABACService.isList] at hlist ⊢ <;>
      simp [hval, PyValue.pyEq]
  · intro hop hval hlist
    unfold ABACService.evaluate_complex_condition
    simp only [hop, Option.getD_some]
    rcases hexp : (dictGet condition "value").getD .none with _ | b | n | s | xs | d <;>
      simp [hexp, ABACService.isList] at hlist ⊢ <;>
      simp [hval, PyValue.pyEq]
  · intro op hop hnot hval
    unfold ABACService.evaluate_complex_condition
    simp only [hop, Option.getD_some]
    simp only [List.mem_cons, List.not_mem_nil, or_false, not_or] at hnot
    obtain ⟨h1, h2, h3, h4, h5, h6, h7, h8, h9, h10⟩ := hnot
    simp [hval, PyValue.pyEq, h1, h2, h3, h4, h5, h6, h7, h8, h9, h10]
  · exact abac_ord_incomparable_false rm _ _ "gt" (by decide) (by rfl) (by rfl) (by rfl)

/-- Witness for C9 at concrete conditions: `gt` against an incomparable
pair, `in` and `not_in` against a non-list expected value, and an unknown
operator. -/
theorem C9_abac_operator_safety_witness :
    ABACService.evaluate_complex_condition (fun _ _ => .ok true)
      [("operator", .str "gt"), ("value", .int 5)] (.str "abc") = false ∧
    ABACService.evaluate_complex_condition (fun _ _ => .ok true)
      [("operator", .str "in"), ("value", .int 3)] (.int 1) = false ∧
    ABACService.evaluate_complex_condition (fun _ _ => .ok true)
      [("operator", .str "not_in"), ("value", .int 3)] (.int 1) = true ∧
    ABACService.evaluate_complex_condition (fun _ _ => .ok true)
      [("operator", .str "frobnicate"), ("value", .int 3)] (.int 1) = false := by
  refine ⟨?_, ?_, ?_, ?_⟩
  · exact (C9_abac_operator_safety (fun _ _ => .ok true)
      [("operator", .str "gt"), ("value", .int 5)] (.str "abc")).1 "gt"
      (by decide) (by rfl) (by rfl) (by rfl)
  · exact (C9_abac_operator_safety (fun _ _ => .ok true)
      [("operator", .str "in"), ("value", .int 3)] (.int 1)).2.1
      (by rfl) (by rfl) (by rfl)
  · exact (C9_abac_operator_safety (fun _ _ => .ok true)
      [("operator", .str "not_in"), ("value", .int 3)] (.int 1)).2.2.1
      (by rfl) (by rfl) (by rfl)
  · exact (C9_abac_operator_safety (fun _ _ => .ok true)
      [("operator", .str "frobnicate"), ("value", .int 3)] (.int 1)).2.2.2.1
      "frobnicate" (by rfl) (by decide) (by rfl)

/-! ### Cache helper lemmas -/
theorem find?_keys_eq_none {α : Type} (key : String) (l : List (String × α))
    (h : key ∉ l.map Prod.fst) :
    l.find? (fun p => p.1 == key) = Option.none := by
  rw [List.find?_eq_none]
  intro x hx hpx
  have hxk : x.1 = key := by simpa using hpx
  exact h (List.mem_map.mpr ⟨x, hx, hxk⟩)

theorem eraseKey_of_not_mem {α : Type} (key : String) (l : List (String × α))
    (h : key ∉ l.map Prod.fst) : eraseKey key l = l := by
  apply List.filter_eq_self.mpr
  intro p hp
  simp only [bne_iff_ne, ne_eq, decide_eq_true_eq]
  intro hk
  exact h (List.mem_map.mpr ⟨p, hp, hk⟩)

theorem key_not_mem_eraseKey {α : Type} (key : String) (l : List (String × α)) :
    key ∉ (eraseKey key l).map Prod.fst := by
  intro hmem
  obtain ⟨p, hp, hfst⟩ := List.mem_map.mp hmem
  have := List.of_mem_filter hp
  simp [hfst] at this

theorem length_eraseKey_add_one_le {α : Type} (key : String) (l : List (String × α))
    (hmem : key ∈ l.map Prod.fst) :
    (eraseKey key l).length + 1 ≤ l.length := by
  induction l with
  | nil => simp at hmem
  | cons p tl ih =>
    by_cases hk : p.1 = key
    · simp only [eraseKey, List.filter_cons, hk, bne_self_eq_false]
      have : (List.filter (fun q => q.1 != key) tl).length ≤ tl.length :=
        List.length_filter_le _ _
      simpa using Nat.succ_le_succ this
    · have hmem' : key ∈ tl.map Prod.fst := by
        rcases List.mem_map.mp hmem with ⟨q, hq, hfst⟩
        rcases List.mem_cons.mp hq with heq | hq
        · exact absurd (heq ▸ hfst) hk
        · exact List.mem_map.mpr ⟨q, hq, hfst⟩
      simp only [eraseKey, List.filter_cons]
      have hne : (p.1 != key) = true := by simpa using hk
      rw [hne]
      simpa using Nat.succ_le_succ (ih hmem')

theorem length_eraseKey_of_nodup {α : Type} (key : String) (l : List (String × α))
    (hnd : (l.map Prod.fst).Nodup) (hmem : key ∈ l.map Prod.fst) :
    (eraseKey key l).length + 1 = l.length := by
  induction l with
  | nil => simp at hmem
  | cons p tl ih =>
    simp only [List.map_cons, List.nodup_cons] at hnd
    by_cases hk : p.1 = key
    · have htl : eraseKey key tl = tl :=
        eraseKey_of_not_mem key tl (hk ▸ hnd.1)
      simp only [eraseKey, List.filter_cons, hk, bne_self_eq_false]
      unfold eraseKey at htl
      rw [htl]
      simp
    · have hmem' : key ∈ tl.map Prod.fst := by
        rcases List.mem_map.mp hmem with ⟨q, hq, hfst⟩
        rcases List.mem_cons.mp hq with heq | hq
        · exact absurd (heq ▸ hfst) hk
        · exact List.mem_map.mpr ⟨q, hq, hfst⟩
      have hne : (p.1 != key) = true := by simpa using hk
      simp only [eraseKey, List.filter_cons, hne]
      simpa using ih hnd.2 hmem'

theorem foldl_eraseKey_eq_filter {α : Type} (ks : List String) (l : List (String × α)) :
    ks.foldl (fun acc k => eraseKey k acc) l =
      l.filter (fun p => !(ks.contains p.1)) := by
  induction ks generalizing l with
  | nil => simp
  | cons k ks ih =>
    rw [List.foldl_cons, ih]
    rw [eraseKey, List.filter_filter]
    apply List.filter_congr
    intro p _
    rw [Bool.and_comm]
    by_cases h : p.1 = k <;> simp [h, bne]

/-- Every cache operation leaves `max_size` unchanged. -/
theorem apply_max_size_eq {V : Type} (c : LRUCache V) (op : CacheOp V) :
    (c.apply op).max_size = c.max_size := by
  cases op with
  | get key now =>
    show (c.get key now).2.max_size = c.max_size
    unfold LRUCache.get
    split
    · rfl
    · split <;> rfl
  | set key value ttl now =>
    show (c.set key value ttl now).max_size = c.max_size
    simp only [LRUCache.set]
    split
    · rfl
    · split <;> rfl
  | delete key => rfl
  | clear => rfl
  | clear_pattern pattern => rfl

/-- Every cache operation preserves the size bound. -/
theorem apply_length_le {V : Type} (c : LRUCache V) (op : CacheOp V)
    (h : c.cache.length ≤ c.max_size) :
    (c.apply op).cache.length ≤ c.max_size := by
  cases op with
  | get key now =>
    show (c.get key now).2.cache.length ≤ c.max_size
    unfold LRUCache.get
    rcases hf : c.cache.find? (fun p => p.1 == key) with _ | ⟨k, e⟩
    · simp only [hf]
      simpa using h
    · simp only [hf]
      have hkey : k = key := by
        have := List.find?_some hf
        simpa using this
      have hmem : key ∈ c.cache.map Prod.fst := by
        have := List.mem_of_find?_eq_some hf
        exact List.mem_map.mpr ⟨(k, e), this, hkey ▸ rfl⟩
      have hlen := length_eraseKey_add_one_le key c.cache hmem
      split
      · have herase : (eraseKey key c.cache).length ≤ c.cache.length :=
          List.length_filter_le _ _
        simpa using le_trans herase h
      · simp only [List.length_append, List.length_cons, List.length_nil]
        omega
  | set key value ttl now =>
    show (c.set key value ttl now).cache.length ≤ c.max_size
    simp only [LRUCache.set]
    split
    · rename_i hany
      have hmem : key ∈ c.cache.map Prod.fst := by
        obtain ⟨p, hp, hpk⟩ := List.any_eq_true.mp hany
        have hp1 : p.1 = key := by simpa using hpk
        exact List.mem_map.mpr ⟨p, hp, hp1⟩
      have hlen := length_eraseKey_add_one_le key c.cache hmem
      simp only [List.length_append, List.length_cons, List.length_nil]
      omega
    · split
      · rename_i hgt
        simp only [List.length_drop, List.length_append, List.length_cons,
          List.length_nil] at hgt ⊢
        omega
      · rename_i hle
        simp only [not_lt, gt_iff_lt, List.length_append, List.length_cons,
          List.length_nil] at hle ⊢
        omega
  | delete key =>
    show (eraseKey key c.cache).length ≤ c.max_size
    exact le_trans (List.length_filter_le _ _) h
  | clear =>
    show (([] : List (String × CacheEntry V)).length) ≤ c.max_size
    simp
  | clear_pattern pattern =>
    show ((LRUCache.keysToDelete pattern c.keys).foldl
      (fun acc k => eraseKey k acc) c.cache).length ≤ c.max_size
    rw [foldl_eraseKey_eq_filter]
    exact le_trans (List.length_filter_le _ _) h

/-! ### C5 -/

/-- C5: after any sequence of cache operations from a within-bound state,
the cache holds at most `max_size` entries; `set` on an existing key (under
the unique-keys invariant of the backing dict) keeps the entry count and
moves the key to the most-recently-used end; `set` of a new key into a
full cache evicts exactly the least-recently-used entry (the head) and
keeps the count at `max_size`; concretely, with `max_size = 2`, inserting
A, B, C leaves `get A` a miss and `get B`, `get C` hits. -/
theorem C5_lru_eviction_bound :
    (∀ (V : Type) (c : LRUCache V) (ops : List (CacheOp V)),
      c.cache.length ≤ c.max_size →
      (ops.foldl LRUCache.apply c).cache.length ≤ (ops.foldl LRUCache.apply c).max_size) ∧
    (∀ (V : Type) (c : LRUCache V) (key : String) (v : V) (ttl : Option Int) (now : Int),
      key ∈ c.keys → c.keys.Nodup →
      ((c.set key v ttl now).cache.length = c.cache.length ∧
       (c.set key v ttl now).keys.getLast? = some key)) ∧
    (∀ (V : Type) (c : LRUCache V) (key : String) (v : V) (ttl : Option Int) (now : Int),
      key ∉ c.keys → c.cache.length = c.max_size → 1 ≤ c.max_size →
      ((c.set key v ttl now).keys = c.keys.drop 1 ++ [key] ∧
       (c.set key v ttl now).cache.length = c.max_size)) ∧
    (let c3 : LRUCache Nat :=
       (((⟨2, 100, [], 0, 0⟩ : LRUCache Nat).set "A" 1 Option.none 0).set "B" 2
          Option.none 0).set "C" 3 Option.none 0
     (c3.get "A" 1).1 = Option.none ∧ (c3.get "B" 1).1 = some 2 ∧
       (c3.get "C" 1).1 = some 3 ∧ c3.keys = ["B", "C"]) := by
  refine ⟨?_, ?_, ?_, by decide⟩
  · intro V c ops h
    induction ops generalizing c with
    | nil => simpa using h
    | cons op ops ih =>
      rw [List.foldl_cons]
      apply ih
      rw [apply_max_size_eq c op]
      exact apply_length_le c op h
  · intro V c key v ttl now hmem hnd
    have hany : (c.cache.any fun p => p.1 == key) = true := by
      obtain ⟨p, hp, hpk⟩ := List.mem_map.mp hmem
      exact List.any_eq_true.mpr ⟨p, hp, by simp [hpk]⟩
    constructor
    · simp only [LRUCache.set, hany, if_true]
      have := length_eraseKey_of_nodup key c.cache hnd hmem
      simp only [List.length_append, List.length_cons, List.length_nil]
      omega
    · simp only [LRUCache.set, hany, if_true, LRUCache.keys]
      rw [List.map_append]
      exact List.getLast?_concat _
  · intro V c key v ttl now hmem hfull hone
    have hany : (c.cache.any fun p => p.1 == key) = false := by
      rw [List.any_eq_false]
      intro p hp hpk
      exact hmem (List.mem_map.mpr ⟨p, hp, by simpa using hpk⟩)
    have hgt : (c.cache ++ [(key, (⟨v, now + ttl.getD c.default_ttl⟩ : CacheEntry V))]).length > c.max_size := by
      simp [hfull]
    have hlen1 : 1 ≤ c.cache.length := hfull ▸ hone
    constructor
    · simp only [LRUCache.set, hany, Bool.false_eq_true, if_false, hgt, if_true, LRUCache.keys]
      rw [List.drop_append_of_le_length hlen1, List.map_append, List.map_drop]
      simp
    · simp only [LRUCache.set, hany, Bool.false_eq_true, if_false, hgt, if_true]
      rw [List.drop_append_of_le_length hlen1]
      simp only [List.length_append, List.length_cons, List.length_nil, List.length_drop]
      omega

/-! ### C6 -/

/-- C6: `get` on an entry whose expiry has strictly passed deletes the
entry and counts a miss; `get` on a live entry returns its value, promotes
it to the most-recently-used end, and counts a hit; an entry stored with
`ttl = 0` is a miss on the very next `get` (the clock having strictly
advanced), in every branch of `set`. -/
theorem C6_get_ttl_semantics :
    (∀ (V : Type) (c : LRUCache V) (key : String) (e : CacheEntry V) (now : Int),
      c.cache.find? (fun p => p.1 == key) = some (key, e) →
      e.is_expired now = true →
      (c.get key now).1 = Option.none ∧
      (c.get key now).2.misses = c.misses + 1 ∧
      (c.get key now).2.hits = c.hits ∧
      key ∉ (c.get key now).2.keys) ∧
    (∀ (V : Type) (c : LRUCache V) (key : String) (e : CacheEntry V) (now : Int),
      c.cache.find? (fun p => p.1 == key) = some (key, e) →
      e.is_expired now = false →
      (c.get key now).1 = some e.value ∧
      (c.get key now).2.hits = c.hits + 1 ∧
      (c.get key now).2.misses = c.misses ∧
      (c.get key now).2.keys.getLast? = some key) ∧
    (∀ (V : Type) (c : LRUCache V) (key : String) (v : V) (now1 now2 : Int),
      now1 < now2 →
      ((c.set key v (some 0) now1).get key now2).1 = Option.none ∧
      ((c.set key v (some 0) now1).get key now2).2.misses =
        (c.set key v (some 0) now1).misses + 1) := by
  refine ⟨?_, ?_, ?_⟩
  · intro V c key e now hf hexp
    unfold LRUCache.get
    simp only [hf, hexp, if_true]
    refine ⟨by trivial, by trivial, by trivial, ?_⟩
    exact key_not_mem_eraseKey key c.cache
  · intro V c key e now hf hexp
    unfold LRUCache.get
    simp only [hf, hexp, Bool.false_eq_true, if_false]
    refine ⟨by trivial, by trivial, by trivial, ?_⟩
    simp only [LRUCache.keys, List.map_append]
    exact List.getLast?_concat _
  · intro V c key v now1 now2 hlt
    have hexp : (⟨v, now1 + (0 : Int)⟩ : CacheEntry V).is_expired now2 = true := by
      simp [CacheEntry.is_expired]
      omega
    simp only [LRUCache.set, Option.getD_some]
    split
    · rename_i hany
      have hfind : (eraseKey key c.cache ++ [(key, (⟨v, now1 + 0⟩ : CacheEntry V))]).find?
          (fun p => p.1 == key) = some (key, ⟨v, now1 + 0⟩) := by
        rw [List.find?_append, find?_keys_eq_none key _ (key_not_mem_eraseKey key c.cache)]
        simp [List.find?]
      unfold LRUCache.get
      simp only [hfind, hexp, if_true]
      exact ⟨by trivial, by trivial⟩
    · rename_i hany
      have hnot : key ∉ c.cache.map Prod.fst := by
        intro hmem
        obtain ⟨p, hp, hpk⟩ := List.mem_map.mp hmem
        rw [Bool.not_eq_true, List.any_eq_false] at hany
        exact absurd (by simp [hpk]) (hany p hp)
      split
      · rename_i hgt
        cases hc : c.cache with
        | nil =>
          unfold LRUCache.get
          simp [List.find?]
        | cons x xs =>
          rw [hc] at hnot
          have hxs : key ∉ xs.map Prod.fst := by
            intro hmem
            exact hnot (by simp [hmem])
          have hfind : (xs ++ [(key, (⟨v, now1 + 0⟩ : CacheEntry V))]).find?
              (fun p => p.1 == key) = some (key, ⟨v, now1 + 0⟩) := by
            rw [List.find?_append, find?_keys_eq_none key xs hxs]
            simp [List.find?]
          unfold LRUCache.get
          simp only [List.cons_append, List.drop_succ_cons, List.drop_zero]
          simp only [hfind, hexp, if_true]
          exact ⟨by trivial, by trivial⟩
      · have hfind : ((c.cache ++ [(key, (⟨v, now1 + 0⟩ : CacheEntry V))])).find?
            (fun p => p.1 == key) = some (key, ⟨v, now1 + 0⟩) := by
          rw [List.find?_append, find?_keys_eq_none key _ hnot]
          simp [List.find?]
        unfold LRUCache.get
        simp only [hfind, hexp, if_true]
        exact ⟨by trivial, by trivial⟩

/-- Witness for C5 at a concrete two-entry cache with `max_size = 2`:
an update of existing key A, an overflow insert of new key C, and a
one-operation sequence. -/
theorem C5_lru_eviction_bound_witness :
    ((((⟨2, 100, [("A", ⟨1, 10⟩), ("B", ⟨2, 10⟩)], 0, 0⟩ : LRUCache Nat)).set
        "A" 5 Option.none 0).cache.length =
      (⟨2, 100, [("A", ⟨1, 10⟩), ("B", ⟨2, 10⟩)], 0, 0⟩ : LRUCache Nat).cache.length ∧
     (((⟨2, 100, [("A", ⟨1, 10⟩), ("B", ⟨2, 10⟩)], 0, 0⟩ : LRUCache Nat)).set
        "A" 5 Option.none 0).keys.getLast? = some "A") ∧
    ((((⟨2, 100, [("A", ⟨1, 10⟩), ("B", ⟨2, 10⟩)], 0, 0⟩ : LRUCache Nat)).set
        "C" 7 Option.none 0).keys =
      (⟨2, 100, [("A", ⟨1, 10⟩), ("B", ⟨2, 10⟩)], 0, 0⟩ : LRUCache Nat).keys.drop 1
        ++ ["C"] ∧
     (((⟨2, 100, [("A", ⟨1, 10⟩), ("B", ⟨2, 10⟩)], 0, 0⟩ : LRUCache Nat)).set
        "C" 7 Option.none 0).cache.length =
      (⟨2, 100, [("A", ⟨1, 10⟩), ("B", ⟨2, 10⟩)], 0, 0⟩ : LRUCache Nat).max_size) ∧
    (([CacheOp.get "A" 1] : List (CacheOp Nat)).foldl LRUCache.apply
        (⟨2, 100, [("A", ⟨1, 10⟩), ("B", ⟨2, 10⟩)], 0, 0⟩ : LRUCache Nat)).cache.length ≤
      (([CacheOp.get "A" 1] : List (CacheOp Nat)).foldl LRUCache.apply
        (⟨2, 100, [("A", ⟨1, 10⟩), ("B", ⟨2, 10⟩)], 0, 0⟩ : LRUCache Nat)).max_size := by
  refine ⟨?_, ?_, ?_⟩
  · exact C5_lru_eviction_bound.2.1 Nat
      ⟨2, 100, [("A", ⟨1, 10⟩), ("B", ⟨2, 10⟩)], 0, 0⟩ "A" 5 Option.none 0
      (by decide) (by decide)
  · exact C5_lru_eviction_bound.2.2.1 Nat
      ⟨2, 100, [("A", ⟨1, 10⟩), ("B", ⟨2, 10⟩)], 0, 0⟩ "C" 7 Option.none 0
      (by decide) (by decide) (by decide)
  · exact C5_lru_eviction_bound.1 Nat
      ⟨2, 100, [("A", ⟨1, 10⟩), ("B", ⟨2, 10⟩)], 0, 0⟩ [CacheOp.get "A" 1]
      (by decide)

/-- Witness for C6 at a concrete cache: an expired entry, a live entry,
and a `ttl = 0` store followed by a later `get`. -/
theorem C6_get_ttl_semantics_witness :
    (((⟨10, 100, [("K", ⟨5, 3⟩)], 0, 0⟩ : LRUCache Nat).get "K" 4).1 = Option.none ∧
     ((⟨10, 100, [("K", ⟨5, 3⟩)], 0, 0⟩ : LRUCache Nat).get "K" 4).2.misses = 1 ∧
     ((⟨10, 100, [("K", ⟨5, 3⟩)], 0, 0⟩ : LRUCache Nat).get "K" 4).2.hits = 0 ∧
     "K" ∉ ((⟨10, 100, [("K", ⟨5, 3⟩)], 0, 0⟩ : LRUCache Nat).get "K" 4).2.keys) ∧
    (((⟨10, 100, [("K", ⟨5, 3⟩)], 0, 0⟩ : LRUCache Nat).get "K" 3).1 = some 5 ∧
     ((⟨10, 100, [("K", ⟨5, 3⟩)], 0, 0⟩ : LRUCache Nat).get "K" 3).2.hits = 1 ∧
     ((⟨10, 100, [("K", ⟨5, 3⟩)], 0, 0⟩ : LRUCache Nat).get "K" 3).2.misses = 0 ∧
     ((⟨10, 100, [("K", ⟨5, 3⟩)], 0, 0⟩ : LRUCache Nat).get "K" 3).2.keys.getLast? =
       some "K") ∧
    ((((⟨10, 100, [("K", ⟨5, 3⟩)], 0, 0⟩ : LRUCache Nat).set "J" 9 (some 0) 5).get
        "J" 6).1 = Option.none ∧
     (((⟨10, 100, [("K", ⟨5, 3⟩)], 0, 0⟩ : LRUCache Nat).set "J" 9 (some 0) 5).get
        "J" 6).2.misses =
      ((⟨10, 100, [("K", ⟨5, 3⟩)], 0, 0⟩ : LRUCache Nat).set "J" 9 (some 0) 5).misses
        + 1) := by
  refine ⟨?_, ?_, ?_⟩
  · exact C6_get_ttl_semantics.1 Nat ⟨10, 100, [("K", ⟨5, 3⟩)], 0, 0⟩ "K" ⟨5, 3⟩ 4
      (by rfl) (by decide)
  · exact C6_get_ttl_semantics.2.1 Nat ⟨10, 100, [("K", ⟨5, 3⟩)], 0, 0⟩ "K" ⟨5, 3⟩ 3
      (by rfl) (by decide)
  · exact C6_get_ttl_semantics.2.2 Nat ⟨10, 100, [("K", ⟨5, 3⟩)], 0, 0⟩ "J" 9 5 6
      (by decide)

/-! ### C7 -/

/-- Per-key matcher written from the SPEC's words (the restricted glob
grammar with its priority order: trailing `*` means leading match on the
text before it, else leading `*` means trailing match, else an embedded
`*` means leading match on the part before the first `*` and trailing
match on the part directly after it, else exact equality), to be compared
with the collect-and-delete implementation `LRUCache.clear_pattern`. -/
def specPatternMatches (pattern key : String) : Bool :=
  if strEndsWith pattern "*" then strStartsWith key (strDropRight pattern 1)
  else if strStartsWith pattern "*" then strEndsWith key (strDrop pattern 1)
  else if strContainsChar pattern '*' then
    strStartsWith key ((splitOnStar pattern).headD "") &&
    strEndsWith key (((splitOnStar pattern).drop 1).headD "")
  else key == pattern

/-- The keys the implementation collects are exactly the keys of the cache
selected by the spec's matcher. -/
theorem contains_keysToDelete (pattern : String) (ks : List String) (x : String)
    (hx : x ∈ ks) :
    (LRUCache.keysToDelete pattern ks).contains x = specPatternMatches pattern x := by
  unfold LRUCache.keysToDelete specPatternMatches
  by_cases h1 : strEndsWith pattern "*"
  · simp only [h1, if_true]
    by_cases hq : strStartsWith x (strDropRight pattern 1) <;>
      simp [List.elem_iff, List.mem_filter, hx, hq]
  · by_cases h2 : strStartsWith pattern "*"
    · simp only [h1, h2, Bool.false_eq_true, if_false, if_true]
      by_cases hq : strEndsWith x (strDrop pattern 1) <;>
        simp [List.elem_iff, List.mem_filter, hx, hq]
    · by_cases h3 : strContainsChar pattern '*'
      · simp only [h1, h2, h3, Bool.false_eq_true, if_false, if_true]
        by_cases hq : (strStartsWith x ((splitOnStar pattern).headD "") &&
            strEndsWith x (((splitOnStar pattern).drop 1).headD "")) <;>
          simp [List.elem_iff, List.mem_filter, hx, hq]
      · simp only [h1, h2, h3, Bool.false_eq_true, if_false]
        by_cases h4 : ks.contains pattern
        · simp only [h4, if_true]
          by_cases hxp : x = pattern <;> simp [hxp]
        · simp only [h4, Bool.false_eq_true, if_false]
          have hne : x ≠ pattern := by
            intro heq
            rw [heq] at hx
            exact absurd (List.elem_iff.mpr hx) (by simpa using h4)
          simp [hne]

/-- C7: `clear_pattern` removes exactly the entries whose key matches the
restricted glob grammar in its priority order — the surviving cache is the
filter of the old one by non-matching keys, so every matching key is
removed and no non-matching key is removed; concretely,
`clear_pattern("user_roles:42:*")` on keys `user_roles:42:T1`,
`user_roles:42:T2`, `user_roles:7:T1` removes only the first two. -/
theorem C7_clear_pattern_glob :
    (∀ (V : Type) (c : LRUCache V) (pattern : String),
      (c.clear_pattern pattern).cache =
        c.cache.filter (fun p => !(specPatternMatches pattern p.1))) ∧
    ((⟨10, 100, [("user_roles:42:T1", ⟨1, 10⟩), ("user_roles:42:T2", ⟨2, 10⟩),
        ("user_roles:7:T1", ⟨3, 10⟩)], 0, 0⟩ : LRUCache Nat).clear_pattern
          "user_roles:42:*").cache = [("user_roles:7:T1", ⟨3, 10⟩)] := by
  refine ⟨?_, by decide⟩
  intro V c pattern
  show ((LRUCache.keysToDelete pattern c.keys).foldl
      (fun acc k => eraseKey k acc) c.cache) = _
  rw [foldl_eraseKey_eq_filter]
  apply List.filter_congr
  intro p hp
  have hpk : p.1 ∈ c.keys := List.mem_map.mpr ⟨p, hp, rfl⟩
  rw [contains_keysToDelete pattern c.keys p.1 hpk]


/-! ### C8 -/

/-- C8 (code bug): `clear_tenant("T1")` issues the pattern `*:T1*` to all
three caches; because `clear_pattern` checks for a trailing `*` first, the
pattern is treated as a leading match on the literal text `*:T1`, and no
cache key begins with a literal `*` — so nothing at all is removed, and
the T1-keyed entries survive in every cache, contradicting the method's
docstring ("Clear all cache entries for a tenant") and the spec's
substring-clear intent. Entries namespaced to tenant T2 do remain
retrievable unchanged. `clear_user("42")` does clear the user's role-cache
entries (its role-cache pattern carries the wildcard only at the end), but
its decision-cache pattern `decision:*:42:*` likewise removes nothing. -/
theorem C8_clear_tenant_removes_nothing :
    ((⟨⟨10, 100, [("tenant_policies:T1", ⟨1, 10⟩), ("tenant_policies:T2", ⟨2, 10⟩)], 0, 0⟩,
       ⟨10, 100, [("user_roles:42:T1", ⟨3, 10⟩)], 0, 0⟩,
       ⟨10, 100, [("decision:abc", ⟨4, 10⟩)], 0, 0⟩⟩ :
        PolicyCache Nat Nat Nat).clear_tenant "T1").policy_cache.cache =
      [("tenant_policies:T1", ⟨1, 10⟩), ("tenant_policies:T2", ⟨2, 10⟩)] ∧
    ((⟨⟨10, 100, [("tenant_policies:T1", ⟨1, 10⟩), ("tenant_policies:T2", ⟨2, 10⟩)], 0, 0⟩,
       ⟨10, 100, [("user_roles:42:T1", ⟨3, 10⟩)], 0, 0⟩,
       ⟨10, 100, [("decision:abc", ⟨4, 10⟩)], 0, 0⟩⟩ :
        PolicyCache Nat Nat Nat).clear_tenant "T1").role_cache.cache =
      [("user_roles:42:T1", ⟨3, 10⟩)] ∧
    (((⟨⟨10, 100, [("tenant_policies:T1", ⟨1, 10⟩), ("tenant_policies:T2", ⟨2, 10⟩)], 0, 0⟩,
       ⟨10, 100, [("user_roles:42:T1", ⟨3, 10⟩)], 0, 0⟩,
       ⟨10, 100, [("decision:abc", ⟨4, 10⟩)], 0, 0⟩⟩ :
        PolicyCache Nat Nat Nat).clear_tenant "T1").policy_cache.get
        "tenant_policies:T2" 5).1 = some 2 ∧
    ((⟨⟨10, 100, [("tenant_policies:T1", ⟨1, 10⟩), ("tenant_policies:T2", ⟨2, 10⟩)], 0, 0⟩,
       ⟨10, 100, [("user_roles:42:T1", ⟨3, 10⟩)], 0, 0⟩,
       ⟨10, 100, [("decision:abc", ⟨4, 10⟩)], 0, 0⟩⟩ :
        PolicyCache Nat Nat Nat).clear_user "42").role_cache.cache = [] ∧
    ((⟨⟨10, 100, [("tenant_policies:T1", ⟨1, 10⟩), ("tenant_policies:T2", ⟨2, 10⟩)], 0, 0⟩,
       ⟨10, 100, [("user_roles:42:T1", ⟨3, 10⟩)], 0, 0⟩,
       ⟨10, 100, [("decision:abc", ⟨4, 10⟩)], 0, 0⟩⟩ :
        PolicyCache Nat Nat Nat).clear_user "42").decision_cache.cache =
      [("decision:abc", ⟨4, 10⟩)] := by
  refine ⟨by decide, by decide, by decide, by decide, by decide⟩

/-! ### C10 -/

/-- The batch loop yields one outcome per input, in order. -/
theorem batchLoop_length {σ : Type} (run : σ → AuthzRequest → Except Unit AuthorizationResponse × σ)
    (s : σ) (i : Nat) (checks : List AuthzRequest) :
    (AuthzRoutes.batchLoop run s i checks).length = checks.length := by
  induction checks generalizing s i with
  | nil => rfl
  | cons c rest ih =>
    simp [AuthzRoutes.batchLoop, ih]

/-- The outcome at position `k` of the batch loop is determined by `run`
on the `k`-th check alone (at the state reached before it). -/
theorem batchLoop_get? {σ : Type} (run : σ → AuthzRequest → Except Unit AuthorizationResponse × σ)
    (s : σ) (i : Nat) (checks : List AuthzRequest) (k : Nat) (hk : k < checks.length) :
    (AuthzRoutes.batchLoop run s i checks).get? k =
      some (AuthzRoutes.batchItem
        (run (AuthzRoutes.stateAt run s checks k) (checks.get ⟨k, hk⟩)).1 (i + k)) := by
  induction checks generalizing s i k with
  | nil => simp at hk
  | cons c rest ih =>
    cases k with
    | zero =>
      simp [AuthzRoutes.batchLoop, AuthzRoutes.stateAt]
    | succ k' =>
      have hk' : k' < rest.length := by simpa using Nat.succ_lt_succ_iff.mp hk
      show (AuthzRoutes.batchLoop run (run s c).2 (i + 1) rest).get? k' = _
      rw [ih (run s c).2 (i + 1) k' hk']
      congr 2
      omega

/-- C10: batch evaluation returns exactly one outcome per request in input
order; the outcome at index `k` is built from that request's own
evaluation (at the service state reached before it), carrying
`request_index = k`; a raising request yields
`DENY`/`["EVALUATION_ERROR"]` at its index and, since every other index
keeps its own outcome, the failure does not abort the batch. -/
theorem C10_batch_resilience {σ : Type} (run : σ → AuthzRequest → Except Unit AuthorizationResponse × σ)
    (s : σ) (checks : List AuthzRequest) :
    (AuthzRoutes.batch_check_authorization run s checks).length = checks.length ∧
    (∀ k (hk : k < checks.length),
      (AuthzRoutes.batch_check_authorization run s checks).get? k =
        some (AuthzRoutes.batchItem
          (run (AuthzRoutes.stateAt run s checks k) (checks.get ⟨k, hk⟩)).1 k)) ∧
    (∀ k (hk : k < checks.length),
      (run (AuthzRoutes.stateAt run s checks k) (checks.get ⟨k, hk⟩)).1 = .error () →
      (AuthzRoutes.batch_check_authorization run s checks).get? k =
        some ⟨.DENY, ["EVALUATION_ERROR"], "1.0.0", k⟩) := by
  refine ⟨batchLoop_length run s 0 checks, ?_, ?_⟩
  · intro k hk
    have h := batchLoop_get? run s 0 checks k hk
    simpa using h
  · intro k hk herr
    have h := batchLoop_get? run s 0 checks k hk
    rw [herr] at h
    simpa [AuthzRoutes.batchItem] using h

/-- Witness for C10: a batch of three requests whose middle item raises. -/
theorem C10_batch_resilience_witness :
    (AuthzRoutes.batch_check_authorization
      (fun (st : Nat) c =>
        (if c.action = ActionType.update then Except.error ()
         else Except.ok ⟨DecisionType.ALLOW, ["RBAC_MATCH"], "1.0.0", ["rbac_policy"], 0⟩,
         st + 1))
      0
      [⟨"u1", "loan:1", .read, Option.none, Option.none, []⟩,
       ⟨"u2", "loan:2", .update, Option.none, Option.none, []⟩,
       ⟨"u3", "loan:3", .read, Option.none, Option.none, []⟩]).length = 3 ∧
    (AuthzRoutes.batch_check_authorization
      (fun (st : Nat) c =>
        (if c.action = ActionType.update then Except.error ()
         else Except.ok ⟨DecisionType.ALLOW, ["RBAC_MATCH"], "1.0.0", ["rbac_policy"], 0⟩,
         st + 1))
      0
      [⟨"u1", "loan:1", .read, Option.none, Option.none, []⟩,
       ⟨"u2", "loan:2", .update, Option.none, Option.none, []⟩,
       ⟨"u3", "loan:3", .read, Option.none, Option.none, []⟩]).get? 1 =
      some ⟨.DENY, ["EVALUATION_ERROR"], "1.0.0", 1⟩ ∧
    (AuthzRoutes.batch_check_authorization
      (fun (st : Nat) c =>
        (if c.action = ActionType.update then Except.error ()
         else Except.ok ⟨DecisionType.ALLOW, ["RBAC_MATCH"], "1.0.0", ["rbac_policy"], 0⟩,
         st + 1))
      0
      [⟨"u1", "loan:1", .read, Option.none, Option.none, []⟩,
       ⟨"u2", "loan:2", .update, Option.none, Option.none, []⟩,
       ⟨"u3", "loan:3", .read, Option.none, Option.none, []⟩]).get? 0 =
      some ⟨.ALLOW, ["RBAC_MATCH"], "1.0.0", 0⟩ ∧
    (AuthzRoutes.batch_check_authorization
      (fun (st : Nat) c =>
        (if c.action = ActionType.update then Except.error ()
         else Except.ok ⟨DecisionType.ALLOW, ["RBAC_MATCH"], "1.0.0", ["rbac_policy"], 0⟩,
         st + 1))
      0
      [⟨"u1", "loan:1", .read, Option.none, Option.none, []⟩,
       ⟨"u2", "loan:2", .update, Option.none, Option.none, []⟩,
       ⟨"u3", "loan:3", .read, Option.none, Option.none, []⟩]).get? 2 =
      some ⟨.ALLOW, ["RBAC_MATCH"], "1.0.0", 2⟩ := by
  refine ⟨?_, ?_, ?_, ?_⟩
  · exact (C10_batch_resilience _ 0 _).1
  · exact (C10_batch_resilience _ 0 _).2.2 1 (by decide) (by rfl)
  · exact ((C10_batch_resilience _ 0 _).2.1 0 (by decide)).trans (by rfl)
  · exact ((C10_batch_resilience _ 0 _).2.1 2 (by decide)).trans (by rfl)

/-! ### C3 -/

/-- A `get` for a key not in the cache is a miss that only bumps the miss
counter. -/
theorem get_miss_of_fresh {V : Type} (c : LRUCache V) (key : String) (now : Int)
    (hfresh : key ∉ c.keys) :
    c.get key now = (Option.none, { c with misses := c.misses + 1 }) := by
  unfold LRUCache.get
  rw [find?_keys_eq_none key c.cache hfresh]

/-- Storing a fresh key (with the cache's default TTL) and reading it back
no later than the TTL allows is a hit returning the stored value. -/
theorem set_fresh_get_hit {V : Type} (c : LRUCache V) (key : String) (v : V)
    (now1 now2 : Int) (hfresh : key ∉ c.keys) (hmax : 1 ≤ c.max_size)
    (httl : now2 ≤ now1 + c.default_ttl) :
    ((c.set key v Option.none now1).get key now2).1 = some v ∧
    ((c.set key v Option.none now1).get key now2).2.hits = c.hits + 1 := by
  have hany : (c.cache.any fun p => p.1 == key) = false := by
    rw [List.any_eq_false]
    intro p hp hpk
    exact hfresh (List.mem_map.mpr ⟨p, hp, by simpa using hpk⟩)
  have hexp : (⟨v, now1 + c.default_ttl⟩ : CacheEntry V).is_expired now2 = false := by
    simp [CacheEntry.is_expired]
    omega
  simp only [LRUCache.set, Option.getD_none, hany, Bool.false_eq_true, if_false]
  split
  · rename_i hgt
    cases hc : c.cache with
    | nil =>
      rw [hc] at hgt
      simp at hgt
      omega
    | cons x xs =>
      have hnot : key ∉ c.cache.map Prod.fst := hfresh
      rw [hc] at hnot
      have hxs : key ∉ xs.map Prod.fst := by
        intro hmem
        exact hnot (by simp [hmem])
      have hfind : (xs ++ [(key, (⟨v, now1 + c.default_ttl⟩ : CacheEntry V))]).find?
          (fun p => p.1 == key) = some (key, ⟨v, now1 + c.default_ttl⟩) := by
        rw [List.find?_append, find?_keys_eq_none key xs hxs]
        simp [List.find?]
      unfold LRUCache.get
      simp only [List.cons_append, List.drop_succ_cons, List.drop_zero]
      simp only [hfind, hexp, Bool.false_eq_true, if_false]
      exact ⟨by trivial, by trivial⟩
  · have hnot : key ∉ c.cache.map Prod.fst := hfresh
    have hfind : ((c.cache ++ [(key, (⟨v, now1 + c.default_ttl⟩ : CacheEntry V))])).find?
        (fun p => p.1 == key) = some (key, ⟨v, now1 + c.default_ttl⟩) := by
      rw [List.find?_append, find?_keys_eq_none key _ hnot]
      simp [List.find?]
    unfold LRUCache.get
    simp only [hfind, hexp, Bool.false_eq_true, if_false]
    exact ⟨by trivial, by trivial⟩

/-- Equation for `check_authorization` on a decision-cache miss whose
pipeline run completes: the response is built from the run's outcome and
stored under the decision key. -/
theorem check_authorization_miss {P R : Type} (md5hex : String → String)
    (rm : String → String → Except Unit Bool) (roles : List Role) (now : Int)
    (pc : PolicyCache P R AuthorizationResponse) (r : AuthzRequest)
    (out : DecisionType × List String × List String)
    (hfresh : ("decision:" ++ DecisionService.generate_decision_key md5hex r) ∉
      pc.decision_cache.keys)
    (hev : DecisionService.evaluate rm roles r = .ok out) :
    DecisionService.check_authorization md5hex rm roles now pc r =
      .ok ((⟨out.1, out.2.1, "1.0.0", out.2.2, now⟩ : AuthorizationResponse),
       { pc with decision_cache :=
           (LRUCache.set
             { pc.decision_cache with misses := pc.decision_cache.misses + 1 }
             ("decision:" ++ DecisionService.generate_decision_key md5hex r)
             ⟨out.1, out.2.1, "1.0.0", out.2.2, now⟩ Option.none now) }) := by
  unfold DecisionService.check_authorization PolicyCache.get_decision
    PolicyCache.set_decision
  simp only [get_miss_of_fresh pc.decision_cache _ now hfresh, hev]

/-- Equation for `check_authorization` on a decision-cache miss whose
pipeline run raises: the exception propagates (the miss was counted but
nothing is stored). -/
theorem check_authorization_error {P R : Type} (md5hex : String → String)
    (rm : String → String → Except Unit Bool) (roles : List Role) (now : Int)
    (pc : PolicyCache P R AuthorizationResponse) (r : AuthzRequest) (e : Unit)
    (hfresh : ("decision:" ++ DecisionService.generate_decision_key md5hex r) ∉
      pc.decision_cache.keys)
    (hev : DecisionService.evaluate rm roles r = .error e) :
    DecisionService.check_authorization md5hex rm roles now pc r = .error e := by
  unfold DecisionService.check_authorization PolicyCache.get_decision
  simp only [get_miss_of_fresh pc.decision_cache _ now hfresh, hev]

/-- Equation for `check_authorization` on a decision-cache hit: the stored
response is returned unchanged, with no evaluation. -/
theorem check_authorization_hit {P R : Type} (md5hex : String → String)
    (rm : String → String → Except Unit Bool) (roles : List Role) (now : Int)
    (pc : PolicyCache P R AuthorizationResponse) (r : AuthzRequest)
    (resp : AuthorizationResponse) (dc' : LRUCache AuthorizationResponse)
    (hhit : pc.decision_cache.get
      ("decision:" ++ DecisionService.generate_decision_key md5hex r) now =
        (some resp, dc')) :
    DecisionService.check_authorization md5hex rm roles now pc r =
      .ok (resp, { pc with decision_cache := dc' }) := by
  unfold DecisionService.check_authorization PolicyCache.get_decision
  simp only [hhit]

/-- C3 counterexample to the claim as stated: for a tenanted request
(against an empty decision cache) the first call raises `AttributeError`
at the `UUID(tenant_id)` re-wrapping — no decision is returned or cached,
so no second call can hit the decision cache and return "the identical
decision both times". -/
theorem C3_decision_cache_idempotence_counterexample :
    DecisionService.check_authorization (fun _ => "k") (fun _ _ => .ok true) [] 2
      (⟨⟨10, 100, [], 0, 0⟩, ⟨10, 100, [], 0, 0⟩, ⟨10, 50, [], 0, 0⟩⟩ :
        PolicyCache Nat Nat AuthorizationResponse)
      ⟨"u1", "loan:1", .read, some "T1", Option.none, []⟩ = .error () := by
  exact check_authorization_error (fun _ => "k") (fun _ _ => .ok true) [] 2 _ _ ()
    (by simp [LRUCache.keys])
    (evaluate_of_tenant_some (fun _ _ => .ok true) []
      ⟨"u1", "loan:1", .read, some "T1", Option.none, []⟩ "T1" rfl)

/-- C3 (amended): the decision key is a function of user id, resource,
action and tenant id only (requests agreeing on those four fields share
it, whatever their other context); and for every request whose pipeline
run completes — a tenanted request, or an owner-bearing allow-path one,
raises instead and caches nothing (see the counterexample) — calling
`check_authorization` twice, the first call a miss and the second no
later than the decision TTL with no intervening invalidation or eviction,
returns the identical response both times: the second call is a
decision-cache hit (hit counter bumped) that performs no re-evaluation
(the role list and regex engine of the second call are arbitrary and
unused). -/
theorem C3_decision_cache_idempotence {P R : Type} (md5hex : String → String)
    (rm1 rm2 : String → String → Except Unit Bool)
    (roles1 roles2 : List Role)
    (pc0 : PolicyCache P R AuthorizationResponse)
    (r r' : AuthzRequest) (now1 now2 : Int)
    (out : DecisionType × List String × List String)
    (hkey : r'.user_id = r.user_id ∧ r'.resource = r.resource ∧
            r'.action = r.action ∧ r'.tenant_id = r.tenant_id)
    (hfresh : ("decision:" ++ DecisionService.generate_decision_key md5hex r) ∉
      pc0.decision_cache.keys)
    (hmax : 1 ≤ pc0.decision_cache.max_size)
    (httl : now2 ≤ now1 + pc0.decision_cache.default_ttl)
    (hev : DecisionService.evaluate rm1 roles1 r = .ok out) :
    DecisionService.generate_decision_key md5hex r' =
      DecisionService.generate_decision_key md5hex r ∧
    ∃ (resp1 : AuthorizationResponse)
      (pcA pcB : PolicyCache P R AuthorizationResponse),
      DecisionService.check_authorization md5hex rm1 roles1 now1 pc0 r =
        .ok (resp1, pcA) ∧
      DecisionService.check_authorization md5hex rm2 roles2 now2 pcA r =
        .ok (resp1, pcB) ∧
      resp1.decision = out.1 ∧ resp1.reason_codes = out.2.1 ∧
      pcB.decision_cache.hits = pc0.decision_cache.hits + 1 := by
  obtain ⟨h1, h2, h3, h4⟩ := hkey
  have hkeyeq : DecisionService.generate_decision_key md5hex r' =
      DecisionService.generate_decision_key md5hex r := by
    unfold DecisionService.generate_decision_key
    rw [h1, h2, h3, h4]
  have hfirst := check_authorization_miss md5hex rm1 roles1 now1 pc0 r out hfresh hev
  set resp1 : AuthorizationResponse := ⟨out.1, out.2.1, "1.0.0", out.2.2, now1⟩
    with hresp1
  set dcMiss : LRUCache AuthorizationResponse :=
    { pc0.decision_cache with misses := pc0.decision_cache.misses + 1 } with hdcMiss
  set K := "decision:" ++ DecisionService.generate_decision_key md5hex r with hK
  have hfresh' : K ∉ dcMiss.keys := hfresh
  have hget := set_fresh_get_hit dcMiss K resp1 now1 now2 hfresh' hmax httl
  have hhit : (LRUCache.set dcMiss K resp1 Option.none now1).get K now2 =
      (some resp1, ((LRUCache.set dcMiss K resp1 Option.none now1).get K now2).2) := by
    rw [← hget.1]
  have hsecond := check_authorization_hit md5hex rm2 roles2 now2
    { pc0 with decision_cache := LRUCache.set dcMiss K resp1 Option.none now1 } r
    resp1 ((LRUCache.set dcMiss K resp1 Option.none now1).get K now2).2 hhit
  refine ⟨hkeyeq, resp1, _, _, hfirst, hsecond, rfl, rfl, hget.2⟩

/-- Witness for C3: a concrete untenanted request against an initially
empty decision cache (TTL 50), called at times 2 and 5, and a second
request differing only in owner id and attributes sharing the key. -/
theorem C3_decision_cache_idempotence_witness :
    DecisionService.generate_decision_key (fun _ => "k")
        ⟨"u1", "loan:1", .read, Option.none, some "u9", [("ip", .str "10.0.0.1")]⟩ =
      DecisionService.generate_decision_key (fun _ => "k")
        ⟨"u1", "loan:1", .read, Option.none, Option.none, []⟩ ∧
    (DecisionService.check_authorization (fun _ => "k") (fun _ _ => .ok true) [] 2
      (⟨⟨10, 100, [], 0, 0⟩, ⟨10, 100, [], 0, 0⟩, ⟨10, 50, [], 0, 0⟩⟩ :
        PolicyCache Nat Nat AuthorizationResponse)
      ⟨"u1", "loan:1", .read, Option.none, Option.none, []⟩).isOk = true := by
  have h := C3_decision_cache_idempotence (fun _ => "k") (fun _ _ => .ok true)
    (fun _ _ => .ok true) [] []
    (⟨⟨10, 100, [], 0, 0⟩, ⟨10, 100, [], 0, 0⟩, ⟨10, 50, [], 0, 0⟩⟩ :
      PolicyCache Nat Nat AuthorizationResponse)
    ⟨"u1", "loan:1", .read, Option.none, Option.none, []⟩
    ⟨"u1", "loan:1", .read, Option.none, some "u9", [("ip", .str "10.0.0.1")]⟩ 2 5
    (.DENY, ["NO_ROLES"], ["rbac_policy"])
    ⟨rfl, rfl, rfl, rfl⟩ (by simp [LRUCache.keys]) (by decide) (by decide) (by rfl)
  obtain ⟨hkeyeq, resp1, pcA, pcB, hf, _, _⟩ := h
  refine ⟨hkeyeq, ?_⟩
  rw [hf]
  rfl
